import Mathlib

/-!
Verification development for the StoryStash storage-and-matching core.

This file gives a shallow embedding of the in-memory repository store
(`MemStorage` in the storage module) and of the notification matcher
(`NotificationService.checkForNewBooks`), and proves properties of the
embedded operations.

Modelling conventions:
* A JavaScript `Map<number, T>` keyed by the id of its values is modelled as a
  `List T` in insertion order.  `Map.set(id, v)` replaces the entry with that
  key in place (keys in such maps are unique) or appends at the end; it is
  modelled by `mapSet`.  `Map.delete(id)` is modelled by `mapDelete`.
  `Array.from(map.values())` is the list itself.
* Timestamps (`new Date()`) are ambient inputs; every operation that stamps a
  date takes an explicit `now : Nat` parameter.
* Nullable columns of the schema are `Option`-typed.  JavaScript truthiness
  tests on nullable strings (`if (options.category)`, `book.ageRange && ...`)
  treat both `null` and the empty string as false; they are modelled by
  `strTruthy` and by explicit empty-string guards.  A truthiness test on a
  nullable number treats 0 as false (`natTruthy`).  Arrays are always truthy
  in JavaScript, including empty ones, which the translation preserves.
* Fallible lookups return `Option`; operations that report success return a
  `Bool` paired with the next state.  No operation throws.
-/

namespace StoryStash

/-- `Map.set` on a `Map` keyed by `key v`: replace the (unique) entry carrying
the same key in place, else append at the end. -/
def mapSet {α : Type} (key : α → Nat) (v : α) : List α → List α
  | [] => [v]
  | x :: xs => if key x == key v then v :: xs else x :: mapSet key v xs

/-- `Map.delete id` on a `Map` keyed by `key`: drop the (unique) entry with
that key, if any. -/
def mapDelete {α : Type} (key : α → Nat) (id : Nat) : List α → List α
  | [] => []
  | x :: xs => if key x == id then xs else x :: mapDelete key id xs

/-- Insert into a list sorted descending by `key`. -/
def insertByDesc {α : Type} (key : α → Nat) (a : α) : List α → List α
  | [] => [a]
  | x :: xs => if key x < key a then a :: x :: xs else x :: insertByDesc key a xs

/-- `array.sort((a, b) => key(b) - key(a))`: sort descending by `key`. -/
def sortByDesc {α : Type} (key : α → Nat) : List α → List α
  | [] => []
  | x :: xs => insertByDesc key x (sortByDesc key xs)

/-- Contiguous-sublist test on character lists, used to model
`String.prototype.includes`. -/
def listHasSub (pat : List Char) : List Char → Bool
  | [] => pat.isEmpty
  | c :: cs => pat.isPrefixOf (c :: cs) || listHasSub pat cs

/-- `t.includes(pat)` for strings. -/
def strIncludes (t pat : String) : Bool := listHasSub pat.toList t.toList

/-- JavaScript truthiness of a nullable string: `null` and `""` are falsy. -/
def strTruthy : Option String → Bool
  | none => false
  | some ss => !(ss == "")

/-- JavaScript truthiness of a nullable number: `null`/`undefined` and 0 are
falsy. -/
def natTruthy : Option Nat → Bool
  | none => false
  | some n => !(n == 0)

/-! ## Entities (from the drizzle schema in `schema.ts`) -/

structure User where
  id : Nat
  username : String
  password : String
deriving DecidableEq

structure InsertUser where
  username : String
  password : String
deriving DecidableEq

structure Book where
  id : Nat
  googleId : String
  title : String
  author : String
  description : Option String
  thumbnail : Option String
  categories : Option (List String)
  ageRange : Option String
  publishedDate : Option String
  rating : Option Int
  isNew : Option Bool
deriving DecidableEq

structure InsertBook where
  googleId : String
  title : String
  author : String
  description : Option String
  thumbnail : Option String
  categories : Option (List String)
  ageRange : Option String
  publishedDate : Option String
  rating : Option Int
  isNew : Option Bool
deriving DecidableEq

/-- `Partial<InsertBook>`: a field that is `none` is absent from the update
object and keeps the stored value under the spread `{ ...book, ...update }`. -/
structure BookUpdate where
  googleId : Option String
  title : Option String
  author : Option String
  description : Option (Option String)
  thumbnail : Option (Option String)
  categories : Option (Option (List String))
  ageRange : Option (Option String)
  publishedDate : Option (Option String)
  rating : Option (Option Int)
  isNew : Option (Option Bool)
deriving DecidableEq

structure UserPreferences where
  id : Nat
  userId : Nat
  preferredCategories : Option (List String)
  preferredAgeRanges : Option (List String)
  notificationsEnabled : Option Bool
deriving DecidableEq

structure InsertUserPreferences where
  userId : Nat
  preferredCategories : Option (List String)
  preferredAgeRanges : Option (List String)
  notificationsEnabled : Option Bool
deriving DecidableEq

/-- `Partial<InsertUserPreferences>` for `updateUserPreferences`. -/
structure UserPreferencesUpdate where
  userId : Option Nat
  preferredCategories : Option (Option (List String))
  preferredAgeRanges : Option (Option (List String))
  notificationsEnabled : Option (Option Bool)
deriving DecidableEq

structure Favorite where
  id : Nat
  userId : Nat
  bookId : Nat
  createdAt : Nat
deriving DecidableEq

structure InsertFavorite where
  userId : Nat
  bookId : Nat
deriving DecidableEq

/-- A stored notification.  `MemStorage.createNotification` always writes a
concrete boolean into `isRead` (`false`), and the mark operations write
`true`, so `isRead` is modelled as `Bool`. -/
structure Notification where
  id : Nat
  userId : Nat
  title : String
  message : String
  type : Option String
  isRead : Bool
  createdAt : Nat
  bookId : Option Nat
deriving DecidableEq

/-- Insert shape for notifications.  The zod insert schema omits `isRead`, but
the notification service passes `isRead: false` in its literal; either way
`createNotification` overrides the field with `false` (the `isRead: false`
property in its object literal comes after the spread). -/
structure InsertNotification where
  userId : Nat
  title : String
  message : String
  type : Option String
  bookId : Option Nat
  isRead : Bool
deriving DecidableEq

structure RecentlyViewed where
  id : Nat
  userId : Nat
  bookId : Nat
  viewedAt : Nat
deriving DecidableEq

structure InsertRecentlyViewed where
  userId : Nat
  bookId : Nat
deriving DecidableEq

structure Author where
  id : Nat
  name : String
  bio : Option String
  photo : Option String
deriving DecidableEq

structure InsertAuthor where
  name : String
  bio : Option String
  photo : Option String
deriving DecidableEq

structure BookSeries where
  id : Nat
  name : String
  description : Option String
deriving DecidableEq

structure InsertBookSeries where
  name : String
  description : Option String
deriving DecidableEq

structure FollowingAuthor where
  id : Nat
  userId : Nat
  authorId : Nat
  followedAt : Nat
deriving DecidableEq

structure InsertFollowingAuthor where
  userId : Nat
  authorId : Nat
deriving DecidableEq

structure FollowingSeries where
  id : Nat
  userId : Nat
  seriesId : Nat
  followedAt : Nat
deriving DecidableEq

structure InsertFollowingSeries where
  userId : Nat
  seriesId : Nat
deriving DecidableEq

structure FollowingCategory where
  id : Nat
  userId : Nat
  category : String
  followedAt : Nat
deriving DecidableEq

structure InsertFollowingCategory where
  userId : Nat
  category : String
deriving DecidableEq

/-- The `MemStorage` state: one list per `Map` field plus the per-entity id
allocators. -/
structure State where
  users : List User
  books : List Book
  userPreferences : List UserPreferences
  favorites : List Favorite
  notifications : List Notification
  recentlyViewed : List RecentlyViewed
  authors : List Author
  bookSeries : List BookSeries
  followingAuthors : List FollowingAuthor
  followingSeries : List FollowingSeries
  followingCategories : List FollowingCategory
  nextUserId : Nat
  nextBookId : Nat
  nextUserPreferencesId : Nat
  nextFavoriteId : Nat
  nextNotificationId : Nat
  nextRecentlyViewedId : Nat
  nextAuthorId : Nat
  nextBookSeriesId : Nat
  nextFollowingAuthorId : Nat
  nextFollowingSeriesId : Nat
  nextFollowingCategoryId : Nat
deriving DecidableEq

/-! ## `MemStorage` operations -/

def getUser (s : State) (id : Nat) : Option User :=
  s.users.find? (fun u => u.id == id)

def createUserPreferences (s : State) (prefs : InsertUserPreferences) :
    UserPreferences × State :=
  let id := s.nextUserPreferencesId
  let userPrefs : UserPreferences :=
    { id := id, userId := prefs.userId,
      preferredCategories := prefs.preferredCategories,
      preferredAgeRanges := prefs.preferredAgeRanges,
      notificationsEnabled := prefs.notificationsEnabled }
  (userPrefs,
   { s with userPreferences := mapSet (fun p => p.id) userPrefs s.userPreferences,
            nextUserPreferencesId := id + 1 })

/-- `createUser` stores the user and then creates the default preferences row
(`preferredCategories: []`, `preferredAgeRanges: []`,
`notificationsEnabled: true`) before returning. -/
def createUser (s : State) (insertUser : InsertUser) : User × State :=
  let id := s.nextUserId
  let user : User := { id := id, username := insertUser.username,
                       password := insertUser.password }
  let s1 : State := { s with users := mapSet (fun u => u.id) user s.users,
                             nextUserId := id + 1 }
  (user,
   (createUserPreferences s1
     { userId := id, preferredCategories := some [],
       preferredAgeRanges := some [], notificationsEnabled := some true }).2)

def getUserPreferences (s : State) (userId : Nat) : Option UserPreferences :=
  s.userPreferences.find? (fun prefs => prefs.userId == userId)

def updateUserPreferences (s : State) (userId : Nat)
    (u : UserPreferencesUpdate) : Option UserPreferences × State :=
  match s.userPreferences.find? (fun p => p.userId == userId) with
  | none => (none, s)
  | some prefs =>
    let updatedPrefs : UserPreferences :=
      { id := prefs.id,
        userId := u.userId.getD prefs.userId,
        preferredCategories := u.preferredCategories.getD prefs.preferredCategories,
        preferredAgeRanges := u.preferredAgeRanges.getD prefs.preferredAgeRanges,
        notificationsEnabled := u.notificationsEnabled.getD prefs.notificationsEnabled }
    (some updatedPrefs,
     { s with userPreferences := mapSet (fun p => p.id) updatedPrefs s.userPreferences })

def createBook (s : State) (insertBook : InsertBook) : Book × State :=
  let id := s.nextBookId
  let book : Book :=
    { id := id, googleId := insertBook.googleId, title := insertBook.title,
      author := insertBook.author, description := insertBook.description,
      thumbnail := insertBook.thumbnail, categories := insertBook.categories,
      ageRange := insertBook.ageRange, publishedDate := insertBook.publishedDate,
      rating := insertBook.rating, isNew := insertBook.isNew }
  (book, { s with books := mapSet (fun b => b.id) book s.books,
                  nextBookId := id + 1 })

/-- `{ ...book, ...bookUpdate }`. -/
def applyBookUpdate (b : Book) (u : BookUpdate) : Book :=
  { id := b.id,
    googleId := u.googleId.getD b.googleId,
    title := u.title.getD b.title,
    author := u.author.getD b.author,
    description := u.description.getD b.description,
    thumbnail := u.thumbnail.getD b.thumbnail,
    categories := u.categories.getD b.categories,
    ageRange := u.ageRange.getD b.ageRange,
    publishedDate := u.publishedDate.getD b.publishedDate,
    rating := u.rating.getD b.rating,
    isNew := u.isNew.getD b.isNew }

def updateBook (s : State) (id : Nat) (u : BookUpdate) : Option Book × State :=
  match s.books.find? (fun b => b.id == id) with
  | none => (none, s)
  | some book =>
    let updatedBook := applyBookUpdate book u
    (some updatedBook,
     { s with books := mapSet (fun b => b.id) updatedBook s.books })

structure GetBooksOptions where
  category : Option String
  ageRange : Option String
  isNew : Option Bool
  limit : Option Nat
  offset : Option Nat
deriving DecidableEq

/-- Filter stage of `MemStorage.getBooks` (the successive reassignments of
its local `books` before the sort).  The source tests `if (options.category)`
and `if (options.ageRange)` (string truthiness) and
`options.isNew !== undefined`. -/
def getBooksFiltered (s : State) (options : GetBooksOptions) : List Book :=
  let books := s.books
  let books :=
    if strTruthy options.category then
      books.filter (fun book =>
        match book.categories with
        | none => false
        | some cs => cs.contains (options.category.getD ""))
    else books
  let books :=
    if strTruthy options.ageRange then
      books.filter (fun book => book.ageRange == options.ageRange)
    else books
  match options.isNew with
  | some v => books.filter (fun book => book.isNew == some v)
  | none => books

/-- `MemStorage.getBooks`: filter, sort descending by id, then paginate with
`if (options.offset && options.limit) ... else if (options.limit)` (number
truthiness, so a given 0 is treated as absent).
`books.slice(offset, offset + limit)` is `drop offset` then `take limit`. -/
def getBooks (s : State) (options : GetBooksOptions) : List Book :=
  let books := sortByDesc (fun b => b.id) (getBooksFiltered s options)
  if natTruthy options.offset && natTruthy options.limit then
    (books.drop (options.offset.getD 0)).take (options.limit.getD 0)
  else if natTruthy options.limit then
    books.take (options.limit.getD 0)
  else
    books

def addFavorite (s : State) (now : Nat) (favorite : InsertFavorite) :
    Favorite × State :=
  let id := s.nextFavoriteId
  let newFavorite : Favorite :=
    { id := id, userId := favorite.userId, bookId := favorite.bookId,
      createdAt := now }
  (newFavorite,
   { s with favorites := mapSet (fun f => f.id) newFavorite s.favorites,
            nextFavoriteId := id + 1 })

def removeFavorite (s : State) (userId bookId : Nat) : Bool × State :=
  match s.favorites.find? (fun fav => fav.userId == userId && fav.bookId == bookId) with
  | none => (false, s)
  | some favoriteToRemove =>
    (true, { s with favorites := mapDelete (fun f => f.id) favoriteToRemove.id s.favorites })

def isFavorite (s : State) (userId bookId : Nat) : Bool :=
  s.favorites.any (fun fav => fav.userId == userId && fav.bookId == bookId)

/-- `getNotifications` sorts the rows of the user descending by `createdAt`. -/
def getNotifications (s : State) (userId : Nat) : List Notification :=
  sortByDesc (fun n => n.createdAt)
    (s.notifications.filter (fun n => n.userId == userId))

def createNotification (s : State) (now : Nat)
    (notification : InsertNotification) : Notification × State :=
  let id := s.nextNotificationId
  let newNotification : Notification :=
    { id := id, userId := notification.userId, title := notification.title,
      message := notification.message, type := notification.type,
      isRead := false, createdAt := now, bookId := notification.bookId }
  (newNotification,
   { s with notifications := mapSet (fun n => n.id) newNotification s.notifications,
            nextNotificationId := id + 1 })

/-- `{ ...notification, isRead: true }`. -/
def markRead (n : Notification) : Notification := { n with isRead := true }

def markNotificationAsRead (s : State) (id : Nat) :
    Option Notification × State :=
  match s.notifications.find? (fun n => n.id == id) with
  | none => (none, s)
  | some notification =>
    let updatedNotification := markRead notification
    (some updatedNotification,
     { s with notifications := mapSet (fun n => n.id) updatedNotification s.notifications })

def markAllNotificationsAsRead (s : State) (userId : Nat) : Bool × State :=
  let userNotifications := s.notifications.filter (fun n => n.userId == userId)
  let updated := userNotifications.foldl
    (fun acc n => mapSet (fun m => m.id) (markRead n) acc) s.notifications
  (true, { s with notifications := updated })

def getUnreadNotificationCount (s : State) (userId : Nat) : Nat :=
  (s.notifications.filter (fun n => n.userId == userId && !n.isRead)).length

def addRecentlyViewed (s : State) (now : Nat)
    (recentlyViewed : InsertRecentlyViewed) : RecentlyViewed × State :=
  match s.recentlyViewed.find? (fun entry =>
      entry.userId == recentlyViewed.userId && entry.bookId == recentlyViewed.bookId) with
  | some existingEntry =>
    let updatedEntry := { existingEntry with viewedAt := now }
    (updatedEntry,
     { s with recentlyViewed := mapSet (fun e => e.id) updatedEntry s.recentlyViewed })
  | none =>
    let id := s.nextRecentlyViewedId
    let newEntry : RecentlyViewed :=
      { id := id, userId := recentlyViewed.userId,
        bookId := recentlyViewed.bookId, viewedAt := now }
    (newEntry,
     { s with recentlyViewed := mapSet (fun e => e.id) newEntry s.recentlyViewed,
              nextRecentlyViewedId := id + 1 })

def clearRecentlyViewed (s : State) (userId : Nat) : Bool × State :=
  let entriesToRemove := s.recentlyViewed.filter (fun entry => entry.userId == userId)
  let remaining := entriesToRemove.foldl
    (fun acc e => mapDelete (fun x => x.id) e.id acc) s.recentlyViewed
  (true, { s with recentlyViewed := remaining })

def createAuthor (s : State) (authorData : InsertAuthor) : Author × State :=
  let id := s.nextAuthorId
  let author : Author := { id := id, name := authorData.name,
                           bio := authorData.bio, photo := authorData.photo }
  (author, { s with authors := mapSet (fun a => a.id) author s.authors,
                    nextAuthorId := id + 1 })

def createBookSeries (s : State) (seriesData : InsertBookSeries) :
    BookSeries × State :=
  let id := s.nextBookSeriesId
  let series : BookSeries := { id := id, name := seriesData.name,
                               description := seriesData.description }
  (series, { s with bookSeries := mapSet (fun b => b.id) series s.bookSeries,
                    nextBookSeriesId := id + 1 })

def followAuthor (s : State) (now : Nat) (follow : InsertFollowingAuthor) :
    FollowingAuthor × State :=
  match s.followingAuthors.find? (fun entry =>
      entry.userId == follow.userId && entry.authorId == follow.authorId) with
  | some existingEntry => (existingEntry, s)
  | none =>
    let id := s.nextFollowingAuthorId
    let newEntry : FollowingAuthor :=
      { id := id, userId := follow.userId, authorId := follow.authorId,
        followedAt := now }
    (newEntry,
     { s with followingAuthors := mapSet (fun e => e.id) newEntry s.followingAuthors,
              nextFollowingAuthorId := id + 1 })

def unfollowAuthor (s : State) (userId authorId : Nat) : Bool × State :=
  match s.followingAuthors.find? (fun entry =>
      entry.userId == userId && entry.authorId == authorId) with
  | none => (false, s)
  | some entryToRemove =>
    (true, { s with followingAuthors :=
               mapDelete (fun e => e.id) entryToRemove.id s.followingAuthors })

def followSeries (s : State) (now : Nat) (follow : InsertFollowingSeries) :
    FollowingSeries × State :=
  match s.followingSeries.find? (fun entry =>
      entry.userId == follow.userId && entry.seriesId == follow.seriesId) with
  | some existingEntry => (existingEntry, s)
  | none =>
    let id := s.nextFollowingSeriesId
    let newEntry : FollowingSeries :=
      { id := id, userId := follow.userId, seriesId := follow.seriesId,
        followedAt := now }
    (newEntry,
     { s with followingSeries := mapSet (fun e => e.id) newEntry s.followingSeries,
              nextFollowingSeriesId := id + 1 })

def unfollowSeries (s : State) (userId seriesId : Nat) : Bool × State :=
  match s.followingSeries.find? (fun entry =>
      entry.userId == userId && entry.seriesId == seriesId) with
  | none => (false, s)
  | some entryToRemove =>
    (true, { s with followingSeries :=
               mapDelete (fun e => e.id) entryToRemove.id s.followingSeries })

def followCategory (s : State) (now : Nat) (follow : InsertFollowingCategory) :
    FollowingCategory × State :=
  match s.followingCategories.find? (fun entry =>
      entry.userId == follow.userId && entry.category == follow.category) with
  | some existingEntry => (existingEntry, s)
  | none =>
    let id := s.nextFollowingCategoryId
    let newEntry : FollowingCategory :=
      { id := id, userId := follow.userId, category := follow.category,
        followedAt := now }
    (newEntry,
     { s with followingCategories := mapSet (fun e => e.id) newEntry s.followingCategories,
              nextFollowingCategoryId := id + 1 })

def unfollowCategory (s : State) (userId : Nat) (category : String) :
    Bool × State :=
  match s.followingCategories.find? (fun entry =>
      entry.userId == userId && entry.category == category) with
  | none => (false, s)
  | some entryToRemove =>
    (true, { s with followingCategories :=
               mapDelete (fun e => e.id) entryToRemove.id s.followingCategories })

/-! ## Notification service (`NotificationService.checkForNewBooks`)

The service reads the preference row through `getUserPreference` and the
notifications through `getNotificationsByUserId`; the storage module provides
these as `getUserPreferences` and `getNotifications`, and the row fields it
reads (`preferences.ageRanges`, `preferences.categories`) are the stored
columns `preferredAgeRanges` / `preferredCategories`.  The translation uses
the storage names throughout. -/

/-- Age-range half of the match predicate:
`!preferences.ageRanges || preferences.ageRanges.length === 0 ||
(book.ageRange && preferences.ageRanges.includes(book.ageRange))`.
A `null` or empty-string `book.ageRange` is falsy, so it never satisfies the
third disjunct. -/
def bookAgeRangeMatch (p : UserPreferences) (book : Book) : Bool :=
  match p.preferredAgeRanges with
  | none => true
  | some ageRanges =>
    ageRanges.isEmpty ||
      (match book.ageRange with
       | none => false
       | some a => !(a == "") && ageRanges.contains a)

/-- Category half of the match predicate:
`!preferences.categories || preferences.categories.length === 0 ||
(book.categories && book.categories.some(cat => preferences.categories.includes(cat)))`.
A `null` `book.categories` is falsy; an empty array is truthy and its `.some`
is false. -/
def bookCategoryMatch (p : UserPreferences) (book : Book) : Bool :=
  match p.preferredCategories with
  | none => true
  | some cs =>
    cs.isEmpty ||
      (match book.categories with
       | none => false
       | some bookCats => bookCats.any (fun cat => cs.contains cat))

/-- `return ageRangeMatch || categoryMatch` — the two dimensions are combined
with OR. -/
def bookMatches (p : UserPreferences) (book : Book) : Bool :=
  bookAgeRangeMatch p book || bookCategoryMatch p book

/-- The message built by the service.  The literal reads `book.authors?.join`,
but the stored book shape has a single `author` string and no `authors` field,
so the optional chain yields `undefined` and the `"Unknown Author"` fallback is
always taken at run time. -/
def newReleaseMessage (book : Book) : String :=
  "\"" ++ book.title ++ "\" by Unknown Author is now available!"

/-- Duplicate check of the matcher: some existing notification of the user
references the book and has a title containing `"New Book Release"`. -/
def alreadyNotified (s : State) (userId bookId : Nat) : Bool :=
  (getNotifications s userId).any (fun n =>
    n.bookId == some bookId && strIncludes n.title "New Book Release")

/-- Body of the inner `for (const book of matchingBooks)` loop: re-read the
notifications of the user, skip if already notified, otherwise create the
notification.  The service literal carries no `type` field. -/
def processBook (s : State) (now userId : Nat) (book : Book) : State :=
  if alreadyNotified s userId book.id then s
  else
    (createNotification s now
      { userId := userId, title := "New Book Release",
        message := newReleaseMessage book, type := none,
        bookId := some book.id, isRead := false }).2

/-- Body of the outer `for (const user of users)` loop: fetch preferences,
skip users without a row, filter the new books by the match predicate and
process each match. -/
def processUser (newBooks : List Book) (now : Nat) (s : State) (u : User) : State :=
  match getUserPreferences s u.id with
  | none => s
  | some preferences =>
    let matchingBooks := newBooks.filter (fun book => bookMatches preferences book)
    matchingBooks.foldl (fun t book => processBook t now u.id book) s

/-- Modelled from the spec: the storage method `getNewReleases` invoked by
`checkForNewBooks` is not among the provided sources (only its caller is);
spec section 4.4 step 1 specifies that it fetches all books flagged
`isNew = true`. -/
def getNewReleases (s : State) : List Book :=
  s.books.filter (fun book => book.isNew == some true)

/-- `NotificationService.getAllUsers`: the simplified implementation looks up
user id 1 only. -/
def getAllUsers (s : State) : List User :=
  match getUser s 1 with
  | some u => [u]
  | none => []

/-- One matcher run. -/
def checkForNewBooks (s : State) (now : Nat) : State :=
  let newBooks := getNewReleases s
  if newBooks.isEmpty then s
  else (getAllUsers s).foldl (fun t u => processUser newBooks now t u) s

/-! ## The operations of the store as a single step type (used for
sequence-indexed properties) -/

/-- Every mutating operation of the store plus the matcher run. -/
inductive Op where
  | opCreateUser (iu : InsertUser)
  | opCreateBook (ib : InsertBook)
  | opUpdateBook (id : Nat) (u : BookUpdate)
  | opCreateUserPreferences (p : InsertUserPreferences)
  | opUpdateUserPreferences (userId : Nat) (u : UserPreferencesUpdate)
  | opAddFavorite (now : Nat) (f : InsertFavorite)
  | opRemoveFavorite (userId bookId : Nat)
  | opCreateNotification (now : Nat) (n : InsertNotification)
  | opMarkNotificationAsRead (id : Nat)
  | opMarkAllNotificationsAsRead (userId : Nat)
  | opAddRecentlyViewed (now : Nat) (rv : InsertRecentlyViewed)
  | opClearRecentlyViewed (userId : Nat)
  | opCreateAuthor (a : InsertAuthor)
  | opCreateBookSeries (bs : InsertBookSeries)
  | opFollowAuthor (now : Nat) (f : InsertFollowingAuthor)
  | opUnfollowAuthor (userId authorId : Nat)
  | opFollowSeries (now : Nat) (f : InsertFollowingSeries)
  | opUnfollowSeries (userId seriesId : Nat)
  | opFollowCategory (now : Nat) (f : InsertFollowingCategory)
  | opUnfollowCategory (userId : Nat) (category : String)
  | opCheckForNewBooks (now : Nat)

/-- State transition of one operation (return values dropped). -/
def stepOp (s : State) : Op → State
  | .opCreateUser iu => (createUser s iu).2
  | .opCreateBook ib => (createBook s ib).2
  | .opUpdateBook id u => (updateBook s id u).2
  | .opCreateUserPreferences p => (createUserPreferences s p).2
  | .opUpdateUserPreferences userId u => (updateUserPreferences s userId u).2
  | .opAddFavorite now f => (addFavorite s now f).2
  | .opRemoveFavorite userId bookId => (removeFavorite s userId bookId).2
  | .opCreateNotification now n => (createNotification s now n).2
  | .opMarkNotificationAsRead id => (markNotificationAsRead s id).2
  | .opMarkAllNotificationsAsRead userId => (markAllNotificationsAsRead s userId).2
  | .opAddRecentlyViewed now rv => (addRecentlyViewed s now rv).2
  | .opClearRecentlyViewed userId => (clearRecentlyViewed s userId).2
  | .opCreateAuthor a => (createAuthor s a).2
  | .opCreateBookSeries bs => (createBookSeries s bs).2
  | .opFollowAuthor now f => (followAuthor s now f).2
  | .opUnfollowAuthor userId authorId => (unfollowAuthor s userId authorId).2
  | .opFollowSeries now f => (followSeries s now f).2
  | .opUnfollowSeries userId seriesId => (unfollowSeries s userId seriesId).2
  | .opFollowCategory now f => (followCategory s now f).2
  | .opUnfollowCategory userId category => (unfollowCategory s userId category).2
  | .opCheckForNewBooks now => checkForNewBooks s now

/-- Run a sequence of operations. -/
def runOps (s : State) (ops : List Op) : State :=
  ops.foldl stepOp s

/-! ## Invariants of the `Map` representation

In a JavaScript `Map` keyed by the allocator-assigned id, keys are pairwise
distinct and always below the next allocator value.  These invariants hold for
every store reachable through the operations and are assumed where a theorem
depends on the `Map` key discipline. -/

/-- The notification map invariant: pairwise distinct ids, all below the
allocator. -/
def NotifInv (s : State) : Prop :=
  s.notifications.Pairwise (fun a b => a.id ≠ b.id) ∧
    ∀ n ∈ s.notifications, n.id < s.nextNotificationId

/-- The recently-viewed map invariant. -/
def RecentlyViewedInv (s : State) : Prop :=
  s.recentlyViewed.Pairwise (fun a b => a.id ≠ b.id) ∧
    ∀ e ∈ s.recentlyViewed, e.id < s.nextRecentlyViewedId

/-- At most one recently-viewed row per (userId, bookId) pair. -/
def PairAtMostOne (l : List RecentlyViewed) : Prop :=
  ∀ userId bookId : Nat,
    (l.filter (fun e => e.userId == userId && e.bookId == bookId)).length ≤ 1

/-- Lookup of a notification by id (`Map.get`). -/
def lookupNotif (l : List Notification) (id : Nat) : Option Notification :=
  l.find? (fun n => n.id == id)

/-- How a matcher step extends the store: users, books and preferences are
untouched, the notification allocator only advances, the allocator bound and
key discipline are preserved, and the notification list grows only by
appended unread entries. -/
def MExt (s t : State) : Prop :=
  t.users = s.users ∧ t.books = s.books ∧ t.userPreferences = s.userPreferences ∧
  s.nextNotificationId ≤ t.nextNotificationId ∧
  ((∀ n ∈ s.notifications, n.id < s.nextNotificationId) →
    (∀ n ∈ t.notifications, n.id < t.nextNotificationId)) ∧
  (s.notifications.Pairwise (fun a b => a.id ≠ b.id) →
    (∀ n ∈ s.notifications, n.id < s.nextNotificationId) →
    t.notifications.Pairwise (fun a b => a.id ≠ b.id)) ∧
  ∃ ext, t.notifications = s.notifications ++ ext ∧ ∀ n ∈ ext, n.isRead = false

/-- Positional evolution of the notification list: existing entries are
preserved or have only their `isRead` flag switched to true, and new entries
may be appended. -/
inductive ReadMono : List Notification → List Notification → Prop
  | nil (ext : List Notification) : ReadMono [] ext
  | keep (n : Notification) {l l' : List Notification} (h : ReadMono l l') :
      ReadMono (n :: l) (n :: l')
  | mark (n : Notification) {l l' : List Notification} (h : ReadMono l l') :
      ReadMono (n :: l) (markRead n :: l')

/-! ## Spec-side definitions

These definitions follow the wording of the specification (not the source)
and are used to compare the source behaviour against it. -/

/-- Spec-side filter predicate of `getBooks`: the conjunction of the
recognized filters, each applied exactly when the source applies it. -/
def passesFilters (options : GetBooksOptions) (book : Book) : Bool :=
  (if strTruthy options.category then
     (match book.categories with
      | none => false
      | some cs => cs.contains (options.category.getD ""))
   else true) &&
  (if strTruthy options.ageRange then book.ageRange == options.ageRange else true) &&
  (match options.isNew with
   | some v => book.isNew == some v
   | none => true)

/-- Spec-side pagination policy with the number-truthiness of the source: a
limit or offset of 0 counts as not given. -/
def paginateJS (options : GetBooksOptions) (l : List Book) : List Book :=
  if natTruthy options.offset && natTruthy options.limit then
    (l.drop (options.offset.getD 0)).take (options.limit.getD 0)
  else if natTruthy options.limit then
    l.take (options.limit.getD 0)
  else
    l

/-- The match predicate exactly as the claim words it: (preferredAgeRanges
empty OR the ageRange of the book is in it) OR (preferredCategories empty OR
some category of the book is in it) — without the string-truthiness guard of
the source. -/
def claimMatches (p : UserPreferences) (book : Book) : Bool :=
  ((match p.preferredAgeRanges with
    | none => true
    | some ageRanges =>
      ageRanges.isEmpty ||
        (match book.ageRange with
         | none => false
         | some a => ageRanges.contains a))) ||
  ((match p.preferredCategories with
    | none => true
    | some cs =>
      cs.isEmpty ||
        (match book.categories with
         | none => false
         | some bookCats => bookCats.any (fun cat => cs.contains cat))))

/-! ## Concrete states for counterexamples and witnesses -/

/-- A store with every collection empty and every allocator at 1. -/
def emptyState : State :=
  { users := [], books := [], userPreferences := [], favorites := [],
    notifications := [], recentlyViewed := [], authors := [], bookSeries := [],
    followingAuthors := [], followingSeries := [], followingCategories := [],
    nextUserId := 1, nextBookId := 1, nextUserPreferencesId := 1,
    nextFavoriteId := 1, nextNotificationId := 1, nextRecentlyViewedId := 1,
    nextAuthorId := 1, nextBookSeriesId := 1, nextFollowingAuthorId := 1,
    nextFollowingSeriesId := 1, nextFollowingCategoryId := 1 }

/-- A new book whose `ageRange` is the empty string (as produced by the
Google-Books mapper when no age range is recognized). -/
def cexBook : Book :=
  { id := 1, googleId := "g1", title := "T", author := "A", description := none,
    thumbnail := none, categories := some ["Y"], ageRange := some "",
    publishedDate := none, rating := none, isNew := some true }

/-- A preferences row whose age-range set contains the empty string. -/
def cexPrefs : UserPreferences :=
  { id := 1, userId := 1, preferredCategories := some ["X"],
    preferredAgeRanges := some [""], notificationsEnabled := some true }

/-- A store holding user 1 with `cexPrefs` and the single new book
`cexBook`. -/
def cexMatcherState : State :=
  { emptyState with
      users := [{ id := 1, username := "demo", password := "password" }],
      books := [cexBook], userPreferences := [cexPrefs],
      nextUserId := 2, nextBookId := 2, nextUserPreferencesId := 2 }

/-- A store for exercising the matcher end to end: user 1 with empty
preference sets, one matching new book. -/
def exMatcherState : State :=
  { emptyState with
      users := [{ id := 1, username := "demo", password := "password" }],
      books := [{ id := 1, googleId := "g1", title := "B1", author := "A",
                  description := none, thumbnail := none,
                  categories := some ["Adventure"], ageRange := some "6-8 years",
                  publishedDate := none, rating := none, isNew := some true }],
      userPreferences := [{ id := 1, userId := 1,
                            preferredCategories := some [],
                            preferredAgeRanges := some ["6-8 years"],
                            notificationsEnabled := some true }],
      nextUserId := 2, nextBookId := 2, nextUserPreferencesId := 2 }

/-- A store with two favorite rows for the same (userId, bookId) pair, as
produced by calling `addFavorite` twice from `emptyState`. -/
def dupFavState : State :=
  (addFavorite (addFavorite emptyState 10 { userId := 1, bookId := 2 }).2
    11 { userId := 1, bookId := 2 }).2

/-- A store with one favorite row for (1, 2). -/
def oneFavState : State :=
  (addFavorite emptyState 10 { userId := 1, bookId := 2 }).2

/-- A store with one book, used for the pagination counterexample. -/
def oneBookState : State :=
  { emptyState with books := [cexBook], nextBookId := 2 }

/-- A store with one followed author, series and category for user 1. -/
def followState : State :=
  { emptyState with
      followingAuthors := [{ id := 1, userId := 1, authorId := 5, followedAt := 0 }],
      followingSeries := [{ id := 1, userId := 1, seriesId := 6, followedAt := 0 }],
      followingCategories := [{ id := 1, userId := 1, category := "Fantasy", followedAt := 0 }],
      nextFollowingAuthorId := 2, nextFollowingSeriesId := 2,
      nextFollowingCategoryId := 2 }

/-- A store with two notifications of user 1 (one read, one unread) and one
of user 2. -/
def notifState : State :=
  { emptyState with
      notifications :=
        [{ id := 1, userId := 1, title := "a", message := "m", type := none,
           isRead := true, createdAt := 0, bookId := none },
         { id := 2, userId := 1, title := "b", message := "m", type := none,
           isRead := false, createdAt := 1, bookId := some 7 },
         { id := 3, userId := 2, title := "c", message := "m", type := none,
           isRead := false, createdAt := 2, bookId := none }],
      nextNotificationId := 4 }

/-! ## Generic lemmas about the list-level `Map` model -/

theorem mem_mapSet_self {α : Type} (key : α → Nat) (v : α) (l : List α) :
    v ∈ mapSet key v l := by
  induction l with
  | nil => simp [mapSet]
  | cons x xs ih =>
    simp only [mapSet]
    split
    · exact List.mem_cons_self v xs
    · exact List.mem_cons_of_mem x ih

theorem find?_mapSet {α : Type} (key : α → Nat) (v : α) (p : α → Bool)
    (l : List α) (h : ∀ x ∈ l, p x = false) (hv : p v = true) :
    (mapSet key v l).find? p = some v := by
  induction l with
  | nil => simp [mapSet, hv]
  | cons x xs ih =>
    have hx := h x (List.mem_cons_self x xs)
    simp only [mapSet]
    split
    · simp [hv]
    · simp only [List.find?_cons, hx, cond_false]
      exact ih (fun y hy => h y (List.mem_cons_of_mem x hy))

theorem mapSet_eq_append {α : Type} (key : α → Nat) (v : α)
    (l : List α) (h : ∀ x ∈ l, key x ≠ key v) : mapSet key v l = l ++ [v] := by
  induction l with
  | nil => simp [mapSet]
  | cons x xs ih =>
    have hx := h x (List.mem_cons_self x xs)
    simp only [mapSet, beq_iff_eq, hx, if_false, List.cons_append, List.cons.injEq,
      true_and]
    exact ih (fun y hy => h y (List.mem_cons_of_mem x hy))

theorem distinctKeys_mem_eq {α : Type} (key : α → Nat) {l : List α} {x y : α}
    (hd : l.Pairwise (fun a b => key a ≠ key b)) (hx : x ∈ l) (hy : y ∈ l)
    (hk : key x = key y) : x = y := by
  induction l with
  | nil => cases hx
  | cons a as ih =>
    rcases List.pairwise_cons.mp hd with ⟨ha, has⟩
    rcases List.mem_cons.mp hx with hx1 | hx2 <;>
      rcases List.mem_cons.mp hy with hy1 | hy2
    · exact hx1.trans hy1.symm
    · exact absurd (hx1 ▸ hk) (ha y hy2)
    · exact absurd (hy1 ▸ hk.symm) (ha x hx2)
    · exact ih has hx2 hy2

theorem map_id_on {α : Type} (f : α → α) (l : List α)
    (h : ∀ a ∈ l, f a = a) : l.map f = l := by
  rw [List.map_congr_left h]
  simp

theorem mapSet_eq_map {α : Type} (key : α → Nat) (v x : α) (l : List α)
    (hd : l.Pairwise (fun a b => key a ≠ key b)) (hm : x ∈ l)
    (hk : key v = key x) :
    mapSet key v l = l.map (fun y => if key y == key x then v else y) := by
  induction l with
  | nil => cases hm
  | cons a as ih =>
    rcases List.pairwise_cons.mp hd with ⟨ha, has⟩
    by_cases hax : key a = key x
    · have htail : as.map (fun y => if key y == key x then v else y) = as := by
        apply map_id_on
        intro y hy
        have hne : key y ≠ key x := fun hc => (ha y hy) (hax.trans hc.symm)
        simp [hne]
      have hguard : (key a == key v) = true := by
        rw [hk]; exact beq_iff_eq.mpr hax
      simp only [mapSet, hguard, if_true, List.map_cons]
      have hhead : (if key a == key x then v else a) = v := by simp [hax]
      rw [hhead, htail]
    · have hguard : (key a == key v) = false := by
        rw [hk]; exact beq_eq_false_iff_ne.mpr hax
      have hx2 : x ∈ as := by
        rcases List.mem_cons.mp hm with h1 | h2
        · exact ((hax (congrArg key h1).symm).elim)
        · exact h2
      simp only [mapSet, hguard, Bool.false_eq_true, if_false, List.map_cons]
      have hhead : (if key a == key x then v else a) = a := by simp [hax]
      rw [hhead]
      exact congrArg (a :: ·) (ih has hx2)

theorem mapDelete_split {α : Type} (key : α → Nat) (l1 l2 : List α) (x : α)
    (h : ∀ y ∈ l1, key y ≠ key x) :
    mapDelete key (key x) (l1 ++ x :: l2) = l1 ++ l2 := by
  induction l1 with
  | nil => simp [mapDelete]
  | cons a as ih =>
    have ha := h a (List.mem_cons_self a as)
    simp only [List.cons_append, mapDelete, beq_iff_eq, ha, if_false]
    exact congrArg (a :: ·) (ih (fun y hy => h y (List.mem_cons_of_mem a hy)))

theorem find?_split {α : Type} (p : α → Bool) (l1 l2 : List α) (x : α)
    (hx : p x = true) (h1 : ∀ y ∈ l1, p y = false) :
    (l1 ++ x :: l2).find? p = some x := by
  induction l1 with
  | nil => simp [hx]
  | cons a as ih =>
    have ha := h1 a (List.mem_cons_self a as)
    simp only [List.cons_append, List.find?_cons, ha, cond_false]
    exact ih (fun y hy => h1 y (List.mem_cons_of_mem a hy))

theorem insertByDesc_perm {α : Type} (key : α → Nat) (a : α) (l : List α) :
    (insertByDesc key a l).Perm (a :: l) := by
  induction l with
  | nil => simp [insertByDesc]
  | cons x xs ih =>
    simp only [insertByDesc]
    split
    · exact List.Perm.refl _
    · exact ((ih.cons x).trans (List.Perm.swap a x xs))

theorem sortByDesc_perm {α : Type} (key : α → Nat) (l : List α) :
    (sortByDesc key l).Perm l := by
  induction l with
  | nil => simp [sortByDesc]
  | cons x xs ih =>
    exact (insertByDesc_perm key x (sortByDesc key xs)).trans (ih.cons x)

theorem mem_sortByDesc {α : Type} (key : α → Nat) (a : α) (l : List α) :
    a ∈ sortByDesc key l ↔ a ∈ l :=
  (sortByDesc_perm key l).mem_iff

theorem any_sortByDesc {α : Type} (key : α → Nat) (p : α → Bool) (l : List α) :
    (sortByDesc key l).any p = l.any p := by
  rw [Bool.eq_iff_iff]
  simp [List.any_eq_true, mem_sortByDesc]

theorem insertByDesc_sorted {α : Type} (key : α → Nat) (a : α) (l : List α)
    (hs : l.Pairwise (fun x y => key y ≤ key x)) :
    (insertByDesc key a l).Pairwise (fun x y => key y ≤ key x) := by
  induction l with
  | nil => simp [insertByDesc]
  | cons x xs ih =>
    rcases List.pairwise_cons.mp hs with ⟨hx, hxs⟩
    by_cases hlt : key x < key a
    · simp only [insertByDesc, if_pos hlt]
      refine List.pairwise_cons.mpr ⟨?_, hs⟩
      intro y hy
      rcases List.mem_cons.mp hy with h1 | h2
      · subst h1; omega
      · have := hx y h2; omega
    · simp only [insertByDesc, if_neg hlt]
      refine List.pairwise_cons.mpr ⟨?_, ih hxs⟩
      intro y hy
      rcases List.mem_cons.mp ((insertByDesc_perm key a xs).mem_iff.mp hy) with h1 | h2
      · subst h1; omega
      · exact hx y h2

theorem sortByDesc_sorted {α : Type} (key : α → Nat) (l : List α) :
    (sortByDesc key l).Pairwise (fun x y => key y ≤ key x) := by
  induction l with
  | nil => simp [sortByDesc]
  | cons x xs ih => exact insertByDesc_sorted key x _ ih

theorem foldl_const {α β : Type} (f : α → β → α) (t : α) (l : List β)
    (h : ∀ a ∈ l, f t a = t) : l.foldl f t = t := by
  induction l with
  | nil => rfl
  | cons a as ih =>
    rw [List.foldl_cons, h a (List.mem_cons_self a as)]
    exact ih (fun b hb => h b (List.mem_cons_of_mem a hb))

theorem filter_length_map_pres {α : Type} (f : α → α) (p : α → Bool)
    (l : List α) (h : ∀ y ∈ l, p (f y) = p y) :
    ((l.map f).filter p).length = (l.filter p).length := by
  induction l with
  | nil => rfl
  | cons a as ih =>
    have ha := h a (List.mem_cons_self a as)
    have ih2 := ih (fun y hy => h y (List.mem_cons_of_mem a hy))
    simp only [List.map_cons, List.filter_cons, ha]
    split <;> simp [ih2]

theorem filter_map_false {α : Type} (f : α → α) (p : α → Bool)
    (l : List α) (h : ∀ y ∈ l, p (f y) = false) :
    (l.map f).filter p = [] := by
  induction l with
  | nil => rfl
  | cons a as ih =>
    have ha := h a (List.mem_cons_self a as)
    simp only [List.map_cons, List.filter_cons, ha, Bool.false_eq_true, if_false]
    exact ih (fun y hy => h y (List.mem_cons_of_mem a hy))

theorem find?_mapSet_key {α : Type} (key : α → Nat) (v : α) (l : List α) :
    (mapSet key v l).find? (fun y => key y == key v) = some v := by
  induction l with
  | nil => simp [mapSet]
  | cons x xs ih =>
    simp only [mapSet]
    by_cases hx : key x = key v
    · simp [hx]
    · have hg : (key x == key v) = false := beq_eq_false_iff_ne.mpr hx
      simp only [hg, Bool.false_eq_true, if_false, List.find?_cons, cond_false]
      exact ih

theorem mapSet_append_right {α : Type} (key : α → Nat) (v : α) (l1 l2 : List α)
    (h : ∀ x ∈ l1, key x ≠ key v) :
    mapSet key v (l1 ++ l2) = l1 ++ mapSet key v l2 := by
  induction l1 with
  | nil => rfl
  | cons a as ih =>
    have ha : (key a == key v) = false :=
      beq_eq_false_iff_ne.mpr (h a (List.mem_cons_self a as))
    simp only [List.cons_append, mapSet, ha, Bool.false_eq_true, if_false]
    exact congrArg (a :: ·) (ih (fun x hx => h x (List.mem_cons_of_mem a hx)))

/-! ## Claim theorems -/

/-- C5: immediately after `createUser` returns, the stored user is retrievable
under its assigned id and `getUserPreferences` on that id returns the default
row (empty preferred categories, empty preferred age ranges, notifications
enabled); both inserts happen inside `createUser`.  The hypothesis is the
allocator discipline: no pre-existing preferences row carries the id about to
be assigned to the user. -/
theorem createUser_default_preferences (s : State) (iu : InsertUser)
    (h : ∀ p ∈ s.userPreferences, p.userId ≠ s.nextUserId) :
    (createUser s iu).1.id = s.nextUserId ∧
    getUser (createUser s iu).2 s.nextUserId = some (createUser s iu).1 ∧
    getUserPreferences (createUser s iu).2 (createUser s iu).1.id =
      some { id := s.nextUserPreferencesId, userId := s.nextUserId,
             preferredCategories := some [], preferredAgeRanges := some [],
             notificationsEnabled := some true } := by
  refine ⟨rfl, ?_, ?_⟩
  · show (mapSet (fun u => u.id)
      { id := s.nextUserId, username := iu.username, password := iu.password }
      s.users).find? (fun u => u.id == s.nextUserId) = _
    exact find?_mapSet_key (fun u => u.id)
      { id := s.nextUserId, username := iu.username, password := iu.password } s.users
  · show (mapSet (fun p => p.id)
      { id := s.nextUserPreferencesId, userId := s.nextUserId,
        preferredCategories := some [], preferredAgeRanges := some [],
        notificationsEnabled := some true }
      s.userPreferences).find? (fun p => p.userId == s.nextUserId) = _
    apply find?_mapSet
    · intro x hx
      exact beq_eq_false_iff_ne.mpr (h x hx)
    · exact beq_self_eq_true _

/-- Witness for C5 at the empty store. -/
theorem createUser_default_preferences_witness :
    (∀ p ∈ emptyState.userPreferences, p.userId ≠ emptyState.nextUserId) ∧
    getUserPreferences (createUser emptyState { username := "u", password := "p" }).2
        (createUser emptyState { username := "u", password := "p" }).1.id =
      some { id := 1, userId := 1, preferredCategories := some [],
             preferredAgeRanges := some [], notificationsEnabled := some true } :=
  ⟨by decide,
   (createUser_default_preferences emptyState { username := "u", password := "p" }
     (by decide)).2.2⟩

/-- C1 counterexample: from the empty store, two `addFavorite` calls with the
same (userId, bookId) pair leave two Favorite rows for that pair, not one
(`addFavorite` performs no existence check); `isFavorite` is nevertheless
true. -/
theorem addFavorite_duplicates_pair :
    (dupFavState.favorites.filter (fun f => f.userId == 1 && f.bookId == 2)).length = 2 ∧
    ¬ (dupFavState.favorites.filter (fun f => f.userId == 1 && f.bookId == 2)).length = 1 ∧
    isFavorite dupFavState 1 2 = true :=
  ⟨by decide, by decide, by decide⟩

/-- C1 amended: `addFavorite` performs no existence check and always inserts a
fresh row, so two calls with the same pair add two rows (the pair count grows
by exactly two); `isFavorite` is true after the first call and remains true
after the second.  The hypothesis is the allocator discipline on favorite
ids. -/
theorem addFavorite_inserts_always (s : State) (t1 t2 userId bookId : Nat)
    (h : ∀ f ∈ s.favorites, f.id < s.nextFavoriteId) :
    isFavorite (addFavorite s t1 { userId := userId, bookId := bookId }).2 userId bookId = true ∧
    isFavorite (addFavorite (addFavorite s t1 { userId := userId, bookId := bookId }).2 t2
        { userId := userId, bookId := bookId }).2 userId bookId = true ∧
    ((addFavorite (addFavorite s t1 { userId := userId, bookId := bookId }).2 t2
        { userId := userId, bookId := bookId }).2.favorites.filter
        (fun f => f.userId == userId && f.bookId == bookId)).length =
      (s.favorites.filter (fun f => f.userId == userId && f.bookId == bookId)).length + 2 := by
  have hfav1 : (addFavorite s t1 { userId := userId, bookId := bookId }).2.favorites
      = s.favorites ++ [{ id := s.nextFavoriteId, userId := userId, bookId := bookId,
                          createdAt := t1 }] :=
    mapSet_eq_append _ _ _ (fun x hx => Nat.ne_of_lt (h x hx))
  have hnext1 : (addFavorite s t1 { userId := userId, bookId := bookId }).2.nextFavoriteId
      = s.nextFavoriteId + 1 := rfl
  have hbound1 : ∀ f ∈ (addFavorite s t1 { userId := userId, bookId := bookId }).2.favorites,
      f.id < (addFavorite s t1 { userId := userId, bookId := bookId }).2.nextFavoriteId := by
    rw [hfav1, hnext1]
    intro f hf
    rcases List.mem_append.mp hf with h1 | h1
    · exact Nat.lt_succ_of_lt (h f h1)
    · rw [List.mem_singleton.mp h1]
      exact Nat.lt_succ_self _
  have hfav2 : (addFavorite (addFavorite s t1 { userId := userId, bookId := bookId }).2 t2
      { userId := userId, bookId := bookId }).2.favorites
      = (addFavorite s t1 { userId := userId, bookId := bookId }).2.favorites ++
        [{ id := s.nextFavoriteId + 1, userId := userId, bookId := bookId, createdAt := t2 }] :=
    mapSet_eq_append _ _ _ (fun x hx => Nat.ne_of_lt (hbound1 x hx))
  refine ⟨?_, ?_, ?_⟩
  · show ((addFavorite s t1 { userId := userId, bookId := bookId }).2.favorites.any
      (fun fav => fav.userId == userId && fav.bookId == bookId)) = true
    rw [hfav1]
    simp
  · show ((addFavorite (addFavorite s t1 { userId := userId, bookId := bookId }).2 t2
        { userId := userId, bookId := bookId }).2.favorites.any
      (fun fav => fav.userId == userId && fav.bookId == bookId)) = true
    rw [hfav2, hfav1]
    simp
  · rw [hfav2, hfav1]
    simp [List.filter_append]

/-- Witness for C1 amended at the empty store. -/
theorem addFavorite_inserts_always_witness :
    (∀ f ∈ emptyState.favorites, f.id < emptyState.nextFavoriteId) ∧
    ((addFavorite (addFavorite emptyState 10 { userId := 1, bookId := 2 }).2 11
        { userId := 1, bookId := 2 }).2.favorites.filter
        (fun f => f.userId == 1 && f.bookId == 2)).length =
      (emptyState.favorites.filter (fun f => f.userId == 1 && f.bookId == 2)).length + 2 :=
  ⟨by decide, (addFavorite_inserts_always emptyState 10 11 1 2 (by decide)).2.2⟩

/-- C6 counterexample: in a store holding two Favorite rows for the same pair
(a state reachable by calling `addFavorite` twice), a successful
`removeFavorite` deletes only the first matching row, and `isFavorite` is
still true afterwards — the claim asserts it is false after any successful
removal. -/
theorem removeFavorite_leaves_duplicate :
    (removeFavorite dupFavState 1 2).1 = true ∧
    isFavorite (removeFavorite dupFavState 1 2).2 1 2 = true :=
  ⟨by decide, by decide⟩

/-- C6 amended: each unlink operation returns false and leaves the store
unchanged when no matching row exists; when matching rows exist it deletes
exactly the first matching row (in insertion order) and returns true, never
raising an error; and after a successful `removeFavorite`, `isFavorite` is
false provided the deleted row was the only row for the pair.  The
`x.id ≠ f.id` hypotheses are the `Map` key discipline on the rows before the
first match. -/
theorem unlink_semantics (s : State) (userId bookId authorId seriesId : Nat)
    (category : String) :
    ((∀ f ∈ s.favorites, (f.userId == userId && f.bookId == bookId) = false) →
       removeFavorite s userId bookId = (false, s)) ∧
    ((∀ e ∈ s.followingAuthors, (e.userId == userId && e.authorId == authorId) = false) →
       unfollowAuthor s userId authorId = (false, s)) ∧
    ((∀ e ∈ s.followingSeries, (e.userId == userId && e.seriesId == seriesId) = false) →
       unfollowSeries s userId seriesId = (false, s)) ∧
    ((∀ e ∈ s.followingCategories, (e.userId == userId && e.category == category) = false) →
       unfollowCategory s userId category = (false, s)) ∧
    (∀ l1 f l2, s.favorites = l1 ++ f :: l2 →
       (f.userId == userId && f.bookId == bookId) = true →
       (∀ x ∈ l1, (x.userId == userId && x.bookId == bookId) = false) →
       (∀ x ∈ l1, x.id ≠ f.id) →
       removeFavorite s userId bookId = (true, { s with favorites := l1 ++ l2 })) ∧
    (∀ l1 e l2, s.followingAuthors = l1 ++ e :: l2 →
       (e.userId == userId && e.authorId == authorId) = true →
       (∀ x ∈ l1, (x.userId == userId && x.authorId == authorId) = false) →
       (∀ x ∈ l1, x.id ≠ e.id) →
       unfollowAuthor s userId authorId = (true, { s with followingAuthors := l1 ++ l2 })) ∧
    (∀ l1 e l2, s.followingSeries = l1 ++ e :: l2 →
       (e.userId == userId && e.seriesId == seriesId) = true →
       (∀ x ∈ l1, (x.userId == userId && x.seriesId == seriesId) = false) →
       (∀ x ∈ l1, x.id ≠ e.id) →
       unfollowSeries s userId seriesId = (true, { s with followingSeries := l1 ++ l2 })) ∧
    (∀ l1 e l2, s.followingCategories = l1 ++ e :: l2 →
       (e.userId == userId && e.category == category) = true →
       (∀ x ∈ l1, (x.userId == userId && x.category == category) = false) →
       (∀ x ∈ l1, x.id ≠ e.id) →
       unfollowCategory s userId category = (true, { s with followingCategories := l1 ++ l2 })) ∧
    (∀ l1 f l2, s.favorites = l1 ++ f :: l2 →
       (f.userId == userId && f.bookId == bookId) = true →
       (∀ x ∈ l1, (x.userId == userId && x.bookId == bookId) = false) →
       (∀ x ∈ l1, x.id ≠ f.id) →
       (∀ x ∈ l2, (x.userId == userId && x.bookId == bookId) = false) →
       isFavorite (removeFavorite s userId bookId).2 userId bookId = false) := by
  have hnone : ∀ {β : Type} (l : List β) (p : β → Bool),
      (∀ x ∈ l, p x = false) → l.find? p = none := by
    intro β l p hp
    exact List.find?_eq_none.mpr (fun x hx => by simp [hp x hx])
  refine ⟨?_, ?_, ?_, ?_, ?_, ?_, ?_, ?_, ?_⟩
  · intro hf
    simp [removeFavorite, hnone s.favorites _ hf]
  · intro hf
    simp [unfollowAuthor, hnone s.followingAuthors _ hf]
  · intro hf
    simp [unfollowSeries, hnone s.followingSeries _ hf]
  · intro hf
    simp [unfollowCategory, hnone s.followingCategories _ hf]
  · intro l1 f l2 hsplit hf hl1 hid
    have hfind : s.favorites.find? (fun fav => fav.userId == userId && fav.bookId == bookId)
        = some f := by
      rw [hsplit]; exact find?_split _ l1 l2 f hf hl1
    have hdel : mapDelete (fun x => x.id) f.id s.favorites = l1 ++ l2 := by
      rw [hsplit]; exact mapDelete_split (fun x => x.id) l1 l2 f hid
    simp [removeFavorite, hfind, hdel]
  · intro l1 e l2 hsplit he hl1 hid
    have hfind : s.followingAuthors.find?
        (fun x => x.userId == userId && x.authorId == authorId) = some e := by
      rw [hsplit]; exact find?_split _ l1 l2 e he hl1
    have hdel : mapDelete (fun x => x.id) e.id s.followingAuthors = l1 ++ l2 := by
      rw [hsplit]; exact mapDelete_split (fun x => x.id) l1 l2 e hid
    simp [unfollowAuthor, hfind, hdel]
  · intro l1 e l2 hsplit he hl1 hid
    have hfind : s.followingSeries.find?
        (fun x => x.userId == userId && x.seriesId == seriesId) = some e := by
      rw [hsplit]; exact find?_split _ l1 l2 e he hl1
    have hdel : mapDelete (fun x => x.id) e.id s.followingSeries = l1 ++ l2 := by
      rw [hsplit]; exact mapDelete_split (fun x => x.id) l1 l2 e hid
    simp [unfollowSeries, hfind, hdel]
  · intro l1 e l2 hsplit he hl1 hid
    have hfind : s.followingCategories.find?
        (fun x => x.userId == userId && x.category == category) = some e := by
      rw [hsplit]; exact find?_split _ l1 l2 e he hl1
    have hdel : mapDelete (fun x => x.id) e.id s.followingCategories = l1 ++ l2 := by
      rw [hsplit]; exact mapDelete_split (fun x => x.id) l1 l2 e hid
    simp [unfollowCategory, hfind, hdel]
  · intro l1 f l2 hsplit hf hl1 hid hl2
    have hfind : s.favorites.find? (fun fav => fav.userId == userId && fav.bookId == bookId)
        = some f := by
      rw [hsplit]; exact find?_split _ l1 l2 f hf hl1
    have hdel : mapDelete (fun x => x.id) f.id s.favorites = l1 ++ l2 := by
      rw [hsplit]; exact mapDelete_split (fun x => x.id) l1 l2 f hid
    have hres : (removeFavorite s userId bookId).2.favorites = l1 ++ l2 := by
      simp [removeFavorite, hfind, hdel]
    show ((removeFavorite s userId bookId).2.favorites.any
      (fun fav => fav.userId == userId && fav.bookId == bookId)) = false
    rw [hres]
    refine List.any_eq_false.mpr ?_
    intro x hx
    rcases List.mem_append.mp hx with h1 | h1
    · simp [hl1 x h1]
    · simp [hl2 x h1]

/-- Witness for C6 amended: the not-found case at the empty store and the
found case at a one-row store. -/
theorem unlink_semantics_witness :
    removeFavorite emptyState 1 2 = (false, emptyState) ∧
    removeFavorite oneFavState 1 2 = (true, { oneFavState with favorites := [] ++ [] }) ∧
    isFavorite (removeFavorite oneFavState 1 2).2 1 2 = false :=
  ⟨(unlink_semantics emptyState 1 2 0 0 "c").1 (by decide),
   (unlink_semantics oneFavState 1 2 0 0 "c").2.2.2.2.1 []
     { id := 1, userId := 1, bookId := 2, createdAt := 10 } [] (by decide) (by decide)
     (by simp) (by simp),
   (unlink_semantics oneFavState 1 2 0 0 "c").2.2.2.2.2.2.2.2 []
     { id := 1, userId := 1, bookId := 2, createdAt := 10 } [] (by decide) (by decide)
     (by simp) (by simp) (by simp)⟩

/-- C7: each of `followAuthor`, `followSeries`, `followCategory` is
idempotent: when a row with the same (userId, targetKey) exists, the first
such row is returned and the store is unchanged (no duplicate, no error);
otherwise exactly one new row is appended and the allocator advances.  The
boundedness hypotheses are the allocator discipline. -/
theorem follow_idempotent (s : State) (now : Nat)
    (fa : InsertFollowingAuthor) (fsr : InsertFollowingSeries)
    (fc : InsertFollowingCategory) :
    (∀ e, s.followingAuthors.find?
        (fun x => x.userId == fa.userId && x.authorId == fa.authorId) = some e →
       followAuthor s now fa = (e, s)) ∧
    (s.followingAuthors.find?
        (fun x => x.userId == fa.userId && x.authorId == fa.authorId) = none →
       (∀ x ∈ s.followingAuthors, x.id < s.nextFollowingAuthorId) →
       followAuthor s now fa =
         ({ id := s.nextFollowingAuthorId, userId := fa.userId,
            authorId := fa.authorId, followedAt := now },
          { s with followingAuthors := s.followingAuthors ++ [{ id := s.nextFollowingAuthorId, userId := fa.userId, authorId := fa.authorId, followedAt := now }],
                   nextFollowingAuthorId := s.nextFollowingAuthorId + 1 })) ∧
    (∀ e, s.followingSeries.find?
        (fun x => x.userId == fsr.userId && x.seriesId == fsr.seriesId) = some e →
       followSeries s now fsr = (e, s)) ∧
    (s.followingSeries.find?
        (fun x => x.userId == fsr.userId && x.seriesId == fsr.seriesId) = none →
       (∀ x ∈ s.followingSeries, x.id < s.nextFollowingSeriesId) →
       followSeries s now fsr =
         ({ id := s.nextFollowingSeriesId, userId := fsr.userId,
            seriesId := fsr.seriesId, followedAt := now },
          { s with followingSeries := s.followingSeries ++ [{ id := s.nextFollowingSeriesId, userId := fsr.userId, seriesId := fsr.seriesId, followedAt := now }],
                   nextFollowingSeriesId := s.nextFollowingSeriesId + 1 })) ∧
    (∀ e, s.followingCategories.find?
        (fun x => x.userId == fc.userId && x.category == fc.category) = some e →
       followCategory s now fc = (e, s)) ∧
    (s.followingCategories.find?
        (fun x => x.userId == fc.userId && x.category == fc.category) = none →
       (∀ x ∈ s.followingCategories, x.id < s.nextFollowingCategoryId) →
       followCategory s now fc =
         ({ id := s.nextFollowingCategoryId, userId := fc.userId,
            category := fc.category, followedAt := now },
          { s with followingCategories := s.followingCategories ++ [{ id := s.nextFollowingCategoryId, userId := fc.userId, category := fc.category, followedAt := now }],
                   nextFollowingCategoryId := s.nextFollowingCategoryId + 1 })) := by
  refine ⟨?_, ?_, ?_, ?_, ?_, ?_⟩
  · intro e he
    simp [followAuthor, he]
  · intro hnone hb
    have happ := mapSet_eq_append (fun e => e.id)
      { id := s.nextFollowingAuthorId, userId := fa.userId, authorId := fa.authorId,
        followedAt := now }
      s.followingAuthors (fun x hx => Nat.ne_of_lt (hb x hx))
    simp [followAuthor, hnone, happ]
  · intro e he
    simp [followSeries, he]
  · intro hnone hb
    have happ := mapSet_eq_append (fun e => e.id)
      { id := s.nextFollowingSeriesId, userId := fsr.userId, seriesId := fsr.seriesId,
        followedAt := now }
      s.followingSeries (fun x hx => Nat.ne_of_lt (hb x hx))
    simp [followSeries, hnone, happ]
  · intro e he
    simp [followCategory, he]
  · intro hnone hb
    have happ := mapSet_eq_append (fun e => e.id)
      { id := s.nextFollowingCategoryId, userId := fc.userId, category := fc.category,
        followedAt := now }
      s.followingCategories (fun x hx => Nat.ne_of_lt (hb x hx))
    simp [followCategory, hnone, happ]

/-- `addRecentlyViewed` when a row for the pair already exists: update the
timestamp in place. -/
theorem addRecentlyViewed_found (s : State) (now : Nat) (rv : InsertRecentlyViewed)
    (e : RecentlyViewed)
    (hfind : s.recentlyViewed.find?
      (fun x => x.userId == rv.userId && x.bookId == rv.bookId) = some e) :
    addRecentlyViewed s now rv =
      ({ e with viewedAt := now },
       { s with recentlyViewed := mapSet (fun x => x.id) { e with viewedAt := now } s.recentlyViewed }) := by
  simp only [addRecentlyViewed, hfind]

/-- `addRecentlyViewed` when no row for the pair exists: insert a fresh
entry. -/
theorem addRecentlyViewed_notfound (s : State) (now : Nat) (rv : InsertRecentlyViewed)
    (hfind : s.recentlyViewed.find?
      (fun x => x.userId == rv.userId && x.bookId == rv.bookId) = none) :
    addRecentlyViewed s now rv =
      ({ id := s.nextRecentlyViewedId, userId := rv.userId, bookId := rv.bookId,
         viewedAt := now },
       { s with recentlyViewed := mapSet (fun x => x.id) { id := s.nextRecentlyViewedId, userId := rv.userId, bookId := rv.bookId, viewedAt := now } s.recentlyViewed,
                nextRecentlyViewedId := s.nextRecentlyViewedId + 1 }) := by
  simp only [addRecentlyViewed, hfind]

/-- One `addRecentlyViewed` call preserves the recently-viewed map invariant
and the at-most-one-row-per-pair invariant. -/
theorem addRecentlyViewed_inv (s : State) (now : Nat) (rv : InsertRecentlyViewed)
    (hinv : RecentlyViewedInv s) (hp : PairAtMostOne s.recentlyViewed) :
    RecentlyViewedInv (addRecentlyViewed s now rv).2 ∧
    PairAtMostOne (addRecentlyViewed s now rv).2.recentlyViewed := by
  rcases hinv with ⟨hd, hb⟩
  rcases hfind : s.recentlyViewed.find?
      (fun e => e.userId == rv.userId && e.bookId == rv.bookId) with _ | e
  · -- no existing row: append a fresh entry
    have hstep := addRecentlyViewed_notfound s now rv hfind
    have hlist : (addRecentlyViewed s now rv).2.recentlyViewed =
        s.recentlyViewed ++ [{ id := s.nextRecentlyViewedId, userId := rv.userId,
                               bookId := rv.bookId, viewedAt := now }] := by
      rw [hstep]
      exact mapSet_eq_append (fun e => e.id)
        { id := s.nextRecentlyViewedId, userId := rv.userId, bookId := rv.bookId,
          viewedAt := now }
        s.recentlyViewed (fun x hx => Nat.ne_of_lt (hb x hx))
    have hnext : (addRecentlyViewed s now rv).2.nextRecentlyViewedId =
        s.nextRecentlyViewedId + 1 := by
      rw [hstep]
    have hnonef : ∀ x ∈ s.recentlyViewed,
        (x.userId == rv.userId && x.bookId == rv.bookId) = false := by
      intro x hx
      have hfx := List.find?_eq_none.mp hfind x hx
      simpa using hfx
    refine ⟨⟨?_, ?_⟩, ?_⟩
    · rw [hlist]
      refine List.pairwise_append.mpr ⟨hd, List.pairwise_singleton _ _, ?_⟩
      intro a ha b hbm
      rw [List.mem_singleton.mp hbm]
      exact Nat.ne_of_lt (hb a ha)
    · rw [hlist, hnext]
      intro x hx
      rcases List.mem_append.mp hx with h1 | h1
      · exact Nat.lt_succ_of_lt (hb x h1)
      · rw [List.mem_singleton.mp h1]; exact Nat.lt_succ_self _
    · intro u b
      rw [hlist, List.filter_append, List.length_append]
      by_cases hub : u = rv.userId ∧ b = rv.bookId
      · have h0 : (s.recentlyViewed.filter (fun e => e.userId == u && e.bookId == b)) = [] := by
          refine List.filter_eq_nil_iff.mpr ?_
          intro x hx
          rw [hub.1, hub.2]
          simp [hnonef x hx]
        rw [h0]
        have hle : (List.filter (fun e => e.userId == u && e.bookId == b)
            [({ id := s.nextRecentlyViewedId, userId := rv.userId, bookId := rv.bookId,
                viewedAt := now } : RecentlyViewed)]).length ≤ 1 := by
          have hq := List.length_filter_le
            (fun (e : RecentlyViewed) => e.userId == u && e.bookId == b)
            [({ id := s.nextRecentlyViewedId, userId := rv.userId, bookId := rv.bookId,
                viewedAt := now } : RecentlyViewed)]
          simpa using hq
        simpa using hle
      · have hfv : (rv.userId == u && rv.bookId == b) = false := by
          have hnb : ¬(rv.userId = u ∧ rv.bookId = b) := by
            intro hcon; exact hub ⟨hcon.1.symm, hcon.2.symm⟩
          rcases Decidable.not_and_iff_or_not.mp hnb with hc | hc
          · simp [hc]
          · simp [hc]
        have h1 : (List.filter (fun e => e.userId == u && e.bookId == b)
            [({ id := s.nextRecentlyViewedId, userId := rv.userId, bookId := rv.bookId,
                viewedAt := now } : RecentlyViewed)]) = [] := by
          simp [hfv]
        rw [h1]
        simpa using hp u b
  · -- existing row: update in place
    have hmem : e ∈ s.recentlyViewed := List.mem_of_find?_eq_some hfind
    have hstep := addRecentlyViewed_found s now rv e hfind
    have hmap : (addRecentlyViewed s now rv).2.recentlyViewed =
        s.recentlyViewed.map (fun y => if y.id == e.id then { e with viewedAt := now } else y) := by
      rw [hstep]
      exact mapSet_eq_map (fun x => x.id) { e with viewedAt := now } e s.recentlyViewed hd hmem rfl
    have hnext : (addRecentlyViewed s now rv).2.nextRecentlyViewedId =
        s.nextRecentlyViewedId := by
      rw [hstep]
    have hidpres : ∀ y ∈ s.recentlyViewed,
        ((if y.id == e.id then { e with viewedAt := now } else y) : RecentlyViewed).id = y.id := by
      intro y hy
      by_cases hye : y.id = e.id
      · simp [hye]
      · simp [hye]
    refine ⟨⟨?_, ?_⟩, ?_⟩
    · rw [hmap]
      rw [List.pairwise_map]
      refine List.Pairwise.imp_of_mem ?_ hd
      intro a b ha hbm hab
      rw [hidpres a ha, hidpres b hbm]
      exact hab
    · rw [hmap, hnext]
      intro x hx
      rcases List.mem_map.mp hx with ⟨y, hy, hyx⟩
      rw [← hyx]
      by_cases hye : y.id = e.id
      · simpa [hye] using hb e hmem
      · simpa [hye] using hb y hy
    · intro u b
      rw [hmap]
      rw [filter_length_map_pres]
      · exact hp u b
      · intro y hy
        by_cases hye : y.id = e.id
        · have hye2 : y = e := distinctKeys_mem_eq (fun x => x.id) hd hy hmem hye
          subst hye2
          simp [hye]
        · simp [hye]

/-- Any sequence of `addRecentlyViewed` calls preserves both invariants. -/
theorem addRecentlyViewed_fold_inv (calls : List (Nat × InsertRecentlyViewed))
    (s : State) (hinv : RecentlyViewedInv s) (hp : PairAtMostOne s.recentlyViewed) :
    RecentlyViewedInv (calls.foldl (fun t c => (addRecentlyViewed t c.1 c.2).2) s) ∧
    PairAtMostOne ((calls.foldl (fun t c => (addRecentlyViewed t c.1 c.2).2) s).recentlyViewed) := by
  induction calls generalizing s with
  | nil => exact ⟨hinv, hp⟩
  | cons c cs ih =>
    rcases addRecentlyViewed_inv s c.1 c.2 hinv hp with ⟨h1, h2⟩
    rw [List.foldl_cons]
    exact ih _ h1 h2

/-- C8: from any store satisfying the map-key and at-most-one invariants, any
sequence of `addRecentlyViewed` calls keeps at most one row per
(userId, bookId) pair; and when no row for the pair exists, two successive
calls produce exactly one row for the pair, updated in place (same row id as
after the first call) with `viewedAt` from the second call. -/
theorem addRecentlyViewed_upsert (s : State) :
    (∀ calls : List (Nat × InsertRecentlyViewed), RecentlyViewedInv s →
       PairAtMostOne s.recentlyViewed →
       PairAtMostOne ((calls.foldl (fun t c => (addRecentlyViewed t c.1 c.2).2) s).recentlyViewed)) ∧
    (∀ t1 t2 rv, RecentlyViewedInv s →
       (∀ e ∈ s.recentlyViewed, (e.userId == rv.userId && e.bookId == rv.bookId) = false) →
       ((addRecentlyViewed (addRecentlyViewed s t1 rv).2 t2 rv).2.recentlyViewed.filter
           (fun e => e.userId == rv.userId && e.bookId == rv.bookId)).length = 1 ∧
       (addRecentlyViewed (addRecentlyViewed s t1 rv).2 t2 rv).1.id =
         (addRecentlyViewed s t1 rv).1.id ∧
       (addRecentlyViewed (addRecentlyViewed s t1 rv).2 t2 rv).1.viewedAt = t2 ∧
       (addRecentlyViewed (addRecentlyViewed s t1 rv).2 t2 rv).2.recentlyViewed =
         s.recentlyViewed ++ [(addRecentlyViewed (addRecentlyViewed s t1 rv).2 t2 rv).1]) := by
  constructor
  · intro calls hinv hp
    exact (addRecentlyViewed_fold_inv calls s hinv hp).2
  · intro t1 t2 rv hinv hno
    rcases hinv with ⟨hd, hb⟩
    have hfind1 : s.recentlyViewed.find?
        (fun e => e.userId == rv.userId && e.bookId == rv.bookId) = none :=
      List.find?_eq_none.mpr (fun x hx => by simp [hno x hx])
    have hstep1 := addRecentlyViewed_notfound s t1 rv hfind1
    have hlist1 : (addRecentlyViewed s t1 rv).2.recentlyViewed =
        s.recentlyViewed ++ [{ id := s.nextRecentlyViewedId, userId := rv.userId,
                               bookId := rv.bookId, viewedAt := t1 }] := by
      rw [hstep1]
      exact mapSet_eq_append (fun e => e.id)
        { id := s.nextRecentlyViewedId, userId := rv.userId, bookId := rv.bookId,
          viewedAt := t1 }
        s.recentlyViewed (fun x hx => Nat.ne_of_lt (hb x hx))
    have hfind2 : (addRecentlyViewed s t1 rv).2.recentlyViewed.find?
        (fun e => e.userId == rv.userId && e.bookId == rv.bookId) =
        some { id := s.nextRecentlyViewedId, userId := rv.userId, bookId := rv.bookId,
               viewedAt := t1 } := by
      rw [hlist1, List.find?_append, hfind1]
      simp
    have hstep2 := addRecentlyViewed_found (addRecentlyViewed s t1 rv).2 t2 rv
      { id := s.nextRecentlyViewedId, userId := rv.userId, bookId := rv.bookId,
        viewedAt := t1 } hfind2
    have he2 : (addRecentlyViewed (addRecentlyViewed s t1 rv).2 t2 rv).1 =
        { id := s.nextRecentlyViewedId, userId := rv.userId, bookId := rv.bookId,
          viewedAt := t2 } := by
      rw [hstep2]
    have hlist2 : (addRecentlyViewed (addRecentlyViewed s t1 rv).2 t2 rv).2.recentlyViewed =
        s.recentlyViewed ++ [{ id := s.nextRecentlyViewedId, userId := rv.userId,
                               bookId := rv.bookId, viewedAt := t2 }] := by
      rw [hstep2]
      show mapSet (fun x => x.id)
        { id := s.nextRecentlyViewedId, userId := rv.userId, bookId := rv.bookId,
          viewedAt := t2 } (addRecentlyViewed s t1 rv).2.recentlyViewed = _
      rw [hlist1,
        mapSet_append_right _ _ _ _ (fun x hx => Nat.ne_of_lt (hb x hx))]
      simp [mapSet]
    refine ⟨?_, ?_, ?_, ?_⟩
    · rw [hlist2, List.filter_append]
      have h0 : (s.recentlyViewed.filter
          (fun e => e.userId == rv.userId && e.bookId == rv.bookId)) = [] :=
        List.filter_eq_nil_iff.mpr (fun x hx => by simp [hno x hx])
      rw [h0]
      simp
    · rw [he2, hstep1]
    · rw [he2]
    · rw [hlist2, he2]

/-- Witness for C8 at the empty store: two views of the same pair leave one
row stamped with the second time. -/
theorem addRecentlyViewed_upsert_witness :
    RecentlyViewedInv emptyState ∧
    ((addRecentlyViewed (addRecentlyViewed emptyState 5 { userId := 1, bookId := 2 }).2 9
        { userId := 1, bookId := 2 }).2.recentlyViewed.filter
        (fun e => e.userId == 1 && e.bookId == 2)).length = 1 ∧
    (addRecentlyViewed (addRecentlyViewed emptyState 5 { userId := 1, bookId := 2 }).2 9
        { userId := 1, bookId := 2 }).1.viewedAt = 9 :=
  ⟨⟨by decide, by decide⟩,
   ((addRecentlyViewed_upsert emptyState).2 5 9 { userId := 1, bookId := 2 }
     ⟨by decide, by decide⟩ (by decide)).1,
   ((addRecentlyViewed_upsert emptyState).2 5 9 { userId := 1, bookId := 2 }
     ⟨by decide, by decide⟩ (by decide)).2.2.1⟩

theorem filter_filter_comm2 {α : Type} (f1 f2 : α → Bool) (l : List α) :
    (l.filter f1).filter f2 = l.filter (fun b => f1 b && f2 b) := by
  induction l with
  | nil => rfl
  | cons a as ih =>
    cases h1 : f1 a <;> cases h2 : f2 a <;>
      simp only [List.filter_cons, h1, h2, Bool.false_and, Bool.true_and,
        Bool.and_false, Bool.and_true, Bool.false_eq_true, if_true, if_false, ih]

theorem filter_filter_comm3 {α : Type} (f1 f2 f3 : α → Bool) (l : List α) :
    ((l.filter f1).filter f2).filter f3 = l.filter (fun b => f1 b && f2 b && f3 b) := by
  induction l with
  | nil => rfl
  | cons a as ih =>
    cases h1 : f1 a <;> cases h2 : f2 a <;> cases h3 : f3 a <;>
      simp only [List.filter_cons, h1, h2, h3, Bool.false_and, Bool.true_and,
        Bool.and_false, Bool.and_true, Bool.false_eq_true, if_true, if_false, ih]

theorem filter_true_id {α : Type} (l : List α) : l.filter (fun _ => true) = l := by
  induction l with
  | nil => rfl
  | cons a as ih => simp [List.filter_cons, ih]

/-- The filter stage of `getBooks` computes exactly the conjunction filter of
the spec. -/
theorem getBooksFiltered_eq (s : State) (o : GetBooksOptions) :
    getBooksFiltered s o = s.books.filter (passesFilters o) := by
  cases hcb : strTruthy o.category <;> cases hab : strTruthy o.ageRange <;>
    rcases hn : o.isNew with _ | v <;>
    simp only [getBooksFiltered, hcb, hab, hn, Bool.false_eq_true, if_true, if_false,
      ite_true, ite_false]
  · conv_lhs => rw [← filter_true_id s.books]
    exact List.filter_congr (fun b _ => by simp [passesFilters, hcb, hab, hn])
  · exact List.filter_congr (fun b _ => by simp [passesFilters, hcb, hab, hn])
  · exact List.filter_congr (fun b _ => by simp [passesFilters, hcb, hab, hn])
  · rw [filter_filter_comm2]
    exact List.filter_congr (fun b _ => by simp [passesFilters, hcb, hab, hn])
  · exact List.filter_congr (fun b _ => by simp [passesFilters, hcb, hab, hn])
  · rw [filter_filter_comm2]
    exact List.filter_congr (fun b _ => by simp [passesFilters, hcb, hab, hn])
  · rw [filter_filter_comm2]
    exact List.filter_congr (fun b _ => by simp [passesFilters, hcb, hab, hn])
  · rw [filter_filter_comm3]
    exact List.filter_congr (fun b _ => by simp [passesFilters, hcb, hab, hn])

/-- `getBooks` is the spec pipeline: conjunction filter, descending sort by
id, JS-truthiness pagination. -/
theorem getBooks_eq_spec (s : State) (o : GetBooksOptions) :
    getBooks s o =
      paginateJS o (sortByDesc (fun b => b.id) (s.books.filter (passesFilters o))) := by
  rw [getBooks, paginateJS, getBooksFiltered_eq]

/-- The paginated result is a sublist of the sorted list. -/
theorem paginateJS_sublist (o : GetBooksOptions) (l : List Book) :
    List.Sublist (paginateJS o l) l := by
  rw [paginateJS]
  by_cases h1 : (natTruthy o.offset && natTruthy o.limit) = true
  · rw [if_pos h1]
    exact ((List.take_sublist _ _).trans (List.drop_sublist _ _))
  · rw [if_neg h1]
    by_cases h2 : natTruthy o.limit = true
    · rw [if_pos h2]
      exact List.take_sublist _ _
    · rw [if_neg h2]

/-- Strictly descending keys after sorting, given pairwise distinct keys. -/
theorem sortByDesc_strict {α : Type} (key : α → Nat) (l : List α)
    (hd : l.Pairwise (fun a b => key a ≠ key b)) :
    (sortByDesc key l).Pairwise (fun a b => key b < key a) := by
  have hs := sortByDesc_sorted key l
  have hperm := sortByDesc_perm key l
  have hd2 : (sortByDesc key l).Pairwise (fun a b => key a ≠ key b) :=
    (List.Perm.pairwise_iff (fun hx => Ne.symm hx) hperm.symm).mp hd
  exact (hs.and hd2).imp (fun hab => Nat.lt_of_le_of_ne hab.1 (Ne.symm hab.2))

/-- C4 amended: `getBooks` filters by the conjunction of the recognized
options — each string option applying only when given and non-empty, `isNew`
whenever given — sorts strictly descending by id, and paginates with the
number-truthiness of the source: when offset and limit are both given and
nonzero the result is the slice [offset, offset+limit); when limit is given
and nonzero (and offset absent or zero) it is the first limit elements;
otherwise — including a limit of 0 — the full sorted list.  In particular,
`getBooks({isNew: true, limit: 2})` returns at most two books, all with
`isNew = true`, in strictly descending id order. -/
theorem getBooks_spec (s : State) (o : GetBooksOptions) :
    getBooks s o =
      paginateJS o (sortByDesc (fun b => b.id) (s.books.filter (passesFilters o))) ∧
    (∀ b : Book, b ∈ sortByDesc (fun bk => bk.id) (s.books.filter (passesFilters o)) ↔
       b ∈ s.books ∧ passesFilters o b = true) ∧
    (s.books.Pairwise (fun a b => a.id ≠ b.id) →
       (getBooks s o).Pairwise (fun a b => b.id < a.id)) ∧
    ((getBooks s { category := none, ageRange := none, isNew := some true, limit := some 2, offset := none }).length ≤ 2 ∧
     ∀ b ∈ getBooks s { category := none, ageRange := none, isNew := some true, limit := some 2, offset := none }, b.isNew = some true) := by
  refine ⟨getBooks_eq_spec s o, ?_, ?_, ?_, ?_⟩
  · intro b
    rw [mem_sortByDesc]
    simp [List.mem_filter]
  · intro hd
    rw [getBooks_eq_spec]
    have hfd : (s.books.filter (passesFilters o)).Pairwise (fun a b => a.id ≠ b.id) :=
      hd.sublist (List.filter_sublist s.books)
    exact (sortByDesc_strict (fun b : Book => b.id) _ hfd).sublist
      (paginateJS_sublist o _)
  · rw [getBooks_eq_spec s { category := none, ageRange := none, isNew := some true, limit := some 2, offset := none }]
    simp only [paginateJS, natTruthy]
    simp [List.length_take]
  · intro b hb
    rw [getBooks_eq_spec s { category := none, ageRange := none, isNew := some true, limit := some 2, offset := none }] at hb
    have hbL : b ∈ sortByDesc (fun bk => bk.id)
        (s.books.filter (passesFilters { category := none, ageRange := none, isNew := some true, limit := some 2, offset := none })) :=
      (paginateJS_sublist _ _).subset hb
    rw [mem_sortByDesc] at hbL
    have hp := (List.mem_filter.mp hbL).2
    simp only [passesFilters, strTruthy] at hp
    simpa using hp

/-- C4 counterexample: with `limit: 0` (and no other option) the source
returns the full list because `0` is falsy, where the claim's pagination
policy (`only limit given → first limit elements`) demands the empty list. -/
theorem getBooks_limit_zero :
    getBooks oneBookState
      { category := none, ageRange := none, isNew := none, limit := some 0, offset := none } = [cexBook] ∧
    getBooks oneBookState
      { category := none, ageRange := none, isNew := none, limit := some 0, offset := none } ≠ [] :=
  ⟨by decide, by decide⟩

/-- Witness for C4 at a one-book store. -/
theorem getBooks_spec_witness :
    oneBookState.books.Pairwise (fun a b => a.id ≠ b.id) ∧
    (getBooks oneBookState { category := none, ageRange := none, isNew := some true, limit := some 2, offset := none }).Pairwise (fun a b => b.id < a.id) :=
  ⟨by decide,
   (getBooks_spec oneBookState { category := none, ageRange := none, isNew := some true, limit := some 2, offset := none }).2.2.1 (by decide)⟩

/-- Witness for C7: the found case on a store already following, the insert
case on the empty store. -/
theorem follow_idempotent_witness :
    followAuthor followState 3 { userId := 1, authorId := 5 } =
      ({ id := 1, userId := 1, authorId := 5, followedAt := 0 }, followState) ∧
    followCategory emptyState 3 { userId := 1, category := "Fantasy" } =
      ({ id := 1, userId := 1, category := "Fantasy", followedAt := 3 },
       { emptyState with followingCategories := emptyState.followingCategories ++ [{ id := 1, userId := 1, category := "Fantasy", followedAt := 3 }],
                          nextFollowingCategoryId := 2 }) :=
  ⟨(follow_idempotent followState 3 { userId := 1, authorId := 5 }
      { userId := 1, seriesId := 6 } { userId := 1, category := "Fantasy" }).1
    { id := 1, userId := 1, authorId := 5, followedAt := 0 } (by decide),
   (follow_idempotent emptyState 3 { userId := 1, authorId := 5 }
      { userId := 1, seriesId := 6 } { userId := 1, category := "Fantasy" }).2.2.2.2.2
    (by decide) (by decide)⟩

theorem bookAgeRangeMatch_iff (p : UserPreferences) (book : Book) :
    bookAgeRangeMatch p book = true ↔
      ((p.preferredAgeRanges = none ∨ p.preferredAgeRanges = some []) ∨
       (∃ a, book.ageRange = some a ∧ a ≠ "" ∧ a ∈ p.preferredAgeRanges.getD [])) := by
  rcases hpa : p.preferredAgeRanges with _ | ages
  · simp [bookAgeRangeMatch, hpa]
  · rcases hba : book.ageRange with _ | a
    · simp [bookAgeRangeMatch, hpa, hba, List.isEmpty_iff]
    · simp [bookAgeRangeMatch, hpa, hba, List.isEmpty_iff]

theorem bookCategoryMatch_iff (p : UserPreferences) (book : Book) :
    bookCategoryMatch p book = true ↔
      ((p.preferredCategories = none ∨ p.preferredCategories = some []) ∨
       (∃ c, c ∈ book.categories.getD [] ∧ c ∈ p.preferredCategories.getD [])) := by
  rcases hpc : p.preferredCategories with _ | cs
  · simp [bookCategoryMatch, hpc]
  · rcases hbc : book.categories with _ | bcs
    · simp [bookCategoryMatch, hpc, hbc, List.isEmpty_iff]
    · simp [bookCategoryMatch, hpc, hbc, List.isEmpty_iff, List.any_eq_true]

/-- C2 amended: a matcher run treats a new book as a match exactly when
(preferredAgeRanges is null or empty OR the ageRange of the book is non-null,
non-empty, and in preferredAgeRanges) OR (preferredCategories is null or
empty OR some element of the categories of the book — none if null — is in
preferredCategories); the two dimensions are combined with OR, not AND. -/
theorem matcher_predicate (p : UserPreferences) (newBooks : List Book) (book : Book) :
    book ∈ newBooks.filter (fun b => bookMatches p b) ↔
      book ∈ newBooks ∧
      (((p.preferredAgeRanges = none ∨ p.preferredAgeRanges = some []) ∨
        (∃ a, book.ageRange = some a ∧ a ≠ "" ∧ a ∈ p.preferredAgeRanges.getD [])) ∨
       ((p.preferredCategories = none ∨ p.preferredCategories = some []) ∨
        (∃ c, c ∈ book.categories.getD [] ∧ c ∈ p.preferredCategories.getD []))) := by
  rw [List.mem_filter]
  constructor
  · rintro ⟨hmem, hmatch⟩
    refine ⟨hmem, ?_⟩
    rcases Bool.or_eq_true _ _ |>.mp hmatch with h | h
    · exact Or.inl ((bookAgeRangeMatch_iff p book).mp h)
    · exact Or.inr ((bookCategoryMatch_iff p book).mp h)
  · rintro ⟨hmem, h | h⟩
    · exact ⟨hmem, Bool.or_eq_true _ _ |>.mpr
        (Or.inl ((bookAgeRangeMatch_iff p book).mpr h))⟩
    · exact ⟨hmem, Bool.or_eq_true _ _ |>.mpr
        (Or.inr ((bookCategoryMatch_iff p book).mpr h))⟩

/-- C2 counterexample: a new book whose `ageRange` is the empty string and a
preference row whose `preferredAgeRanges` contains the empty string.  The
predicate as the claim words it matches along the age dimension (the ageRange
of the book is in the set), but the source guard `book.ageRange && ...`
treats the falsy empty string as no ageRange, the category dimension also
fails, and a full matcher run creates no notification. -/
theorem matcher_predicate_empty_string :
    claimMatches cexPrefs cexBook = true ∧
    bookMatches cexPrefs cexBook = false ∧
    cexBook.ageRange = some "" ∧ "" ∈ cexPrefs.preferredAgeRanges.getD [] ∧
    getNewReleases cexMatcherState = [cexBook] ∧
    getUserPreferences cexMatcherState 1 = some cexPrefs ∧
    checkForNewBooks cexMatcherState 0 = cexMatcherState :=
  ⟨by decide, by decide, by decide, by decide, by decide, by decide, by decide⟩

/-- Witness for C2 amended: a book matching through the category dimension is
kept by the filter of the matcher. -/
theorem matcher_predicate_witness :
    ({ id := 1, googleId := "g", title := "T", author := "A", description := none,
       thumbnail := none, categories := some ["X"], ageRange := none,
       publishedDate := none, rating := none, isNew := some true } : Book) ∈
      List.filter (fun b => bookMatches cexPrefs b)
        [{ id := 1, googleId := "g", title := "T", author := "A", description := none,
           thumbnail := none, categories := some ["X"], ageRange := none,
           publishedDate := none, rating := none, isNew := some true }] :=
  (matcher_predicate cexPrefs _ _).mpr
    ⟨List.mem_singleton_self _, Or.inr (Or.inr ⟨"X", by decide, by decide⟩)⟩

/-! ## Matcher idempotence machinery -/

theorem mext_refl (s : State) : MExt s s :=
  ⟨rfl, rfl, rfl, Nat.le_refl _, fun h => h, fun h _ => h, [], by simp, by simp⟩

theorem mext_trans {s t u : State} (h1 : MExt s t) (h2 : MExt t u) : MExt s u := by
  obtain ⟨hu1, hb1, hp1, hc1, hbd1, hd1, ext1, he1, hf1⟩ := h1
  obtain ⟨hu2, hb2, hp2, hc2, hbd2, hd2, ext2, he2, hf2⟩ := h2
  refine ⟨hu2.trans hu1, hb2.trans hb1, hp2.trans hp1, hc1.trans hc2,
    fun hb => hbd2 (hbd1 hb), fun hd hb => hd2 (hd1 hd hb) (hbd1 hb), ext1 ++ ext2, ?_, ?_⟩
  · rw [he2, he1, List.append_assoc]
  · intro n hn
    rcases List.mem_append.mp hn with h | h
    · exact hf1 n h
    · exact hf2 n h

theorem mext_notifs {s t : State} (h : MExt s t) :
    ∃ ext, t.notifications = s.notifications ++ ext :=
  ⟨h.2.2.2.2.2.2.choose, h.2.2.2.2.2.2.choose_spec.1⟩

theorem mext_bound {s t : State} (h : MExt s t)
    (hb : ∀ n ∈ s.notifications, n.id < s.nextNotificationId) :
    ∀ n ∈ t.notifications, n.id < t.nextNotificationId :=
  h.2.2.2.2.1 hb

theorem getNewReleases_congr {s t : State} (h : t.books = s.books) :
    getNewReleases t = getNewReleases s := by
  rw [getNewReleases, getNewReleases, h]

theorem getAllUsers_congr {s t : State} (h : t.users = s.users) :
    getAllUsers t = getAllUsers s := by
  rw [getAllUsers, getAllUsers, getUser, getUser, h]

theorem getUserPreferences_congr {s t : State} (h : t.userPreferences = s.userPreferences)
    (userId : Nat) : getUserPreferences t userId = getUserPreferences s userId := by
  rw [getUserPreferences, getUserPreferences, h]

theorem alreadyNotified_eq (s : State) (userId bookId : Nat) :
    alreadyNotified s userId bookId =
      (s.notifications.filter (fun n => n.userId == userId)).any
        (fun n => n.bookId == some bookId && strIncludes n.title "New Book Release") := by
  rw [alreadyNotified, getNotifications, any_sortByDesc]

theorem alreadyNotified_append {s t : State} (userId bookId : Nat)
    (hext : ∃ ext, t.notifications = s.notifications ++ ext)
    (h : alreadyNotified s userId bookId = true) :
    alreadyNotified t userId bookId = true := by
  rcases hext with ⟨ext, hext⟩
  rw [alreadyNotified_eq] at h ⊢
  rw [hext, List.filter_append, List.any_append, h, Bool.true_or]

theorem createNotification_mext (s : State) (now : Nat) (inp : InsertNotification)
    (hb : ∀ n ∈ s.notifications, n.id < s.nextNotificationId) :
    MExt s (createNotification s now inp).2 := by
  have hlist : (createNotification s now inp).2.notifications =
      s.notifications ++ [{ id := s.nextNotificationId, userId := inp.userId, title := inp.title, message := inp.message, type := inp.type, isRead := false, createdAt := now, bookId := inp.bookId }] := by
    show mapSet (fun n => n.id) _ s.notifications = _
    exact mapSet_eq_append _ _ _ (fun x hx => Nat.ne_of_lt (hb x hx))
  have hnext : (createNotification s now inp).2.nextNotificationId =
      s.nextNotificationId + 1 := rfl
  refine ⟨rfl, rfl, rfl, by rw [hnext]; exact Nat.le_succ _, ?_, ?_, ?_⟩
  · intro _ n hn
    rw [hlist] at hn
    rw [hnext]
    rcases List.mem_append.mp hn with h1 | h1
    · exact Nat.lt_succ_of_lt (hb n h1)
    · rw [List.mem_singleton.mp h1]; exact Nat.lt_succ_self _
  · intro hd _
    rw [hlist]
    refine List.pairwise_append.mpr ⟨hd, List.pairwise_singleton _ _, ?_⟩
    intro a ha b hbm
    rw [List.mem_singleton.mp hbm]
    exact Nat.ne_of_lt (hb a ha)
  · refine ⟨[{ id := s.nextNotificationId, userId := inp.userId, title := inp.title, message := inp.message, type := inp.type, isRead := false, createdAt := now, bookId := inp.bookId }], hlist, ?_⟩
    intro n hn
    rw [List.mem_singleton.mp hn]

theorem processBook_skip (t : State) (now userId : Nat) (book : Book)
    (h : alreadyNotified t userId book.id = true) :
    processBook t now userId book = t := by
  rw [processBook, if_pos h]

theorem processBook_mext (t : State) (now userId : Nat) (book : Book)
    (hb : ∀ n ∈ t.notifications, n.id < t.nextNotificationId) :
    MExt t (processBook t now userId book) := by
  rw [processBook]
  by_cases h : alreadyNotified t userId book.id = true
  · rw [if_pos h]; exact mext_refl t
  · rw [if_neg h]
    exact createNotification_mext t now _ hb

theorem processBook_already (t : State) (now userId : Nat) (book : Book)
    (hb : ∀ n ∈ t.notifications, n.id < t.nextNotificationId) :
    alreadyNotified (processBook t now userId book) userId book.id = true := by
  rw [processBook]
  by_cases h : alreadyNotified t userId book.id = true
  · rw [if_pos h]; exact h
  · rw [if_neg h]
    have hlist : (createNotification t now
        { userId := userId, title := "New Book Release",
          message := newReleaseMessage book, type := none,
          bookId := some book.id, isRead := false }).2.notifications =
        t.notifications ++ [{ id := t.nextNotificationId, userId := userId, title := "New Book Release", message := newReleaseMessage book, type := none, isRead := false, createdAt := now, bookId := some book.id }] := by
      show mapSet (fun n => n.id) _ t.notifications = _
      exact mapSet_eq_append _ _ _ (fun x hx => Nat.ne_of_lt (hb x hx))
    rw [alreadyNotified_eq, hlist, List.filter_append, List.any_append]
    have h2 : (List.filter (fun n => n.userId == userId)
        [({ id := t.nextNotificationId, userId := userId, title := "New Book Release", message := newReleaseMessage book, type := none, isRead := false, createdAt := now, bookId := some book.id } : Notification)]).any
        (fun n => n.bookId == some book.id && strIncludes n.title "New Book Release") = true := by
      have hstr : strIncludes "New Book Release" "New Book Release" = true := by decide
      simp [hstr]
    rw [h2, Bool.or_true]

theorem checkForNewBooks_empty (s : State) (now : Nat)
    (hemp : (getNewReleases s).isEmpty = true) : checkForNewBooks s now = s := by
  simp only [checkForNewBooks, if_pos hemp]

theorem checkForNewBooks_run (s : State) (now : Nat)
    (hemp : ¬(getNewReleases s).isEmpty = true) :
    checkForNewBooks s now =
      (getAllUsers s).foldl (fun t u => processUser (getNewReleases s) now t u) s := by
  simp only [checkForNewBooks, if_neg hemp]

theorem foldBooks_post (now userId : Nat) (books : List Book) (t : State)
    (hb : ∀ n ∈ t.notifications, n.id < t.nextNotificationId) :
    MExt t (books.foldl (fun u b => processBook u now userId b) t) ∧
    ∀ b ∈ books,
      alreadyNotified (books.foldl (fun u b => processBook u now userId b) t)
        userId b.id = true := by
  induction books generalizing t with
  | nil => exact ⟨mext_refl t, by simp⟩
  | cons b bs ih =>
    have hm1 := processBook_mext t now userId b hb
    have hb1 : ∀ n ∈ (processBook t now userId b).notifications,
        n.id < (processBook t now userId b).nextNotificationId := mext_bound hm1 hb
    rcases ih (processBook t now userId b) hb1 with ⟨hm2, hpost⟩
    rw [List.foldl_cons]
    refine ⟨mext_trans hm1 hm2, ?_⟩
    intro b' hbm
    rcases List.mem_cons.mp hbm with h1 | h2
    · subst h1
      exact alreadyNotified_append _ _ (mext_notifs hm2)
        (processBook_already t now userId b' hb)
    · exact hpost b' h2

theorem foldBooks_id (now userId : Nat) (books : List Book) (t : State)
    (h : ∀ b ∈ books, alreadyNotified t userId b.id = true) :
    books.foldl (fun u b => processBook u now userId b) t = t := by
  refine foldl_const _ t books ?_
  intro b hbm
  exact processBook_skip t now userId b (h b hbm)

theorem processUser_mext (newBooks : List Book) (now : Nat) (t : State) (u : User)
    (hb : ∀ n ∈ t.notifications, n.id < t.nextNotificationId) :
    MExt t (processUser newBooks now t u) ∧
    ∀ p, getUserPreferences t u.id = some p →
      ∀ b ∈ newBooks.filter (fun bk => bookMatches p bk),
        alreadyNotified (processUser newBooks now t u) u.id b.id = true := by
  rcases hp : getUserPreferences t u.id with _ | p
  · have heq : processUser newBooks now t u = t := by
      simp only [processUser, hp]
    rw [heq]
    refine ⟨mext_refl t, ?_⟩
    intro p hcon
    cases hcon
  · have heq : processUser newBooks now t u =
        (newBooks.filter (fun bk => bookMatches p bk)).foldl
          (fun t1 b => processBook t1 now u.id b) t := by
      simp only [processUser, hp]
    rw [heq]
    rcases foldBooks_post now u.id (newBooks.filter (fun bk => bookMatches p bk)) t hb
      with ⟨hm, hpost⟩
    refine ⟨hm, ?_⟩
    intro p' hp'
    have hpp : p' = p := (Option.some.inj hp').symm
    subst hpp
    exact hpost

theorem foldUsers_post (newBooks : List Book) (now : Nat) (us : List User) (t : State)
    (hb : ∀ n ∈ t.notifications, n.id < t.nextNotificationId) :
    MExt t (us.foldl (fun t1 u => processUser newBooks now t1 u) t) ∧
    ∀ u ∈ us, ∀ p, getUserPreferences t u.id = some p →
      ∀ b ∈ newBooks.filter (fun bk => bookMatches p bk),
        alreadyNotified (us.foldl (fun t1 u => processUser newBooks now t1 u) t)
          u.id b.id = true := by
  induction us generalizing t with
  | nil => exact ⟨mext_refl t, by simp⟩
  | cons u us ih =>
    rcases processUser_mext newBooks now t u hb with ⟨hm1, hpost1⟩
    have hb1 := mext_bound hm1 hb
    rcases ih (processUser newBooks now t u) hb1 with ⟨hm2, hpost2⟩
    rw [List.foldl_cons]
    refine ⟨mext_trans hm1 hm2, ?_⟩
    intro u' hu' p hp b hbm
    rcases List.mem_cons.mp hu' with h1 | h2
    · subst h1
      exact alreadyNotified_append _ _ (mext_notifs hm2) (hpost1 p hp b hbm)
    · have hp1 : getUserPreferences (processUser newBooks now t u) u'.id = some p := by
        rw [getUserPreferences_congr hm1.2.2.1 u'.id]
        exact hp
      exact hpost2 u' h2 p hp1 b hbm

theorem processUser_id (newBooks : List Book) (now : Nat) (t : State) (u : User)
    (h : ∀ p, getUserPreferences t u.id = some p →
      ∀ b ∈ newBooks.filter (fun bk => bookMatches p bk),
        alreadyNotified t u.id b.id = true) :
    processUser newBooks now t u = t := by
  rcases hp : getUserPreferences t u.id with _ | p
  · simp only [processUser, hp]
  · simp only [processUser, hp]
    exact foldBooks_id now u.id _ t (h p hp)

/-- C3: the matcher creates a notification for (user, book) only when the
existing notifications of the user contain none referencing the book with a
title containing "New Book Release" (`processBook` is the identity whenever
such a notification exists), and running the matcher twice in succession over
the unchanged new-book and preference state leaves the store of the first run
untouched — the second run creates nothing.  The hypothesis is the
notification id-allocator bound (the `Map` key discipline). -/
theorem matcher_idempotent (s : State)
    (hb : ∀ n ∈ s.notifications, n.id < s.nextNotificationId) :
    (∀ now userId book, alreadyNotified s userId book.id = true →
       processBook s now userId book = s) ∧
    ∀ t1 t2, checkForNewBooks (checkForNewBooks s t1) t2 = checkForNewBooks s t1 := by
  constructor
  · intro now userId book h
    exact processBook_skip s now userId book h
  · intro t1 t2
    by_cases hemp : (getNewReleases s).isEmpty = true
    · rw [checkForNewBooks_empty s t1 hemp, checkForNewBooks_empty s t2 hemp]
    · have h1 := checkForNewBooks_run s t1 hemp
      rcases foldUsers_post (getNewReleases s) t1 (getAllUsers s) s hb with ⟨hm, hpost⟩
      rw [← h1] at hm hpost
      have hbooks : getNewReleases (checkForNewBooks s t1) = getNewReleases s :=
        getNewReleases_congr hm.2.1
      have husers : getAllUsers (checkForNewBooks s t1) = getAllUsers s :=
        getAllUsers_congr hm.1
      have hemp2 : ¬(getNewReleases (checkForNewBooks s t1)).isEmpty = true := by
        rw [hbooks]; exact hemp
      rw [checkForNewBooks_run (checkForNewBooks s t1) t2 hemp2, hbooks, husers]
      refine foldl_const _ _ _ ?_
      intro u hu
      refine processUser_id _ t2 _ u ?_
      intro p hp b hbm
      rw [getUserPreferences_congr hm.2.2.1 u.id] at hp
      exact hpost u hu p hp b hbm

/-- Witness for C3 at a store with one matching new book and one user. -/
theorem matcher_idempotent_witness :
    (∀ n ∈ exMatcherState.notifications, n.id < exMatcherState.nextNotificationId) ∧
    checkForNewBooks (checkForNewBooks exMatcherState 3) 4 =
      checkForNewBooks exMatcherState 3 :=
  ⟨by decide, (matcher_idempotent exMatcherState (by decide)).2 3 4⟩

/-! ## Notification read-flag machinery -/

theorem readMono_refl (l : List Notification) : ReadMono l l := by
  induction l with
  | nil => exact ReadMono.nil []
  | cons n l ih => exact ReadMono.keep n ih

theorem readMono_trans : ∀ {l1 l2 l3 : List Notification},
    ReadMono l1 l2 → ReadMono l2 l3 → ReadMono l1 l3 := by
  intro l1 l2 l3 h12
  induction h12 generalizing l3 with
  | nil ext => exact fun _ => ReadMono.nil l3
  | keep n h ih =>
    intro h23
    cases h23 with
    | keep _ h2 => exact ReadMono.keep n (ih h2)
    | mark _ h2 => exact ReadMono.mark n (ih h2)
  | mark n h ih =>
    intro h23
    cases h23 with
    | keep _ h2 => exact ReadMono.mark n (ih h2)
    | mark _ h2 => exact ReadMono.mark n (ih h2)

theorem readMono_append (l ext : List Notification) : ReadMono l (l ++ ext) := by
  induction l with
  | nil => exact ReadMono.nil ext
  | cons n l ih => exact ReadMono.keep n ih

theorem readMono_map (l : List Notification) (f : Notification → Notification)
    (h : ∀ y ∈ l, f y = y ∨ f y = markRead y) : ReadMono l (l.map f) := by
  induction l with
  | nil => exact ReadMono.nil []
  | cons n l ih =>
    have hrec := ih (fun y hy => h y (List.mem_cons_of_mem n hy))
    rcases h n (List.mem_cons_self n l) with h1 | h1
    · rw [List.map_cons, h1]
      exact ReadMono.keep n hrec
    · rw [List.map_cons, h1]
      exact ReadMono.mark n hrec

theorem readMono_lookup : ∀ {l l' : List Notification}, ReadMono l l' →
    ∀ (id : Nat) (n : Notification), lookupNotif l id = some n →
      ∃ n', lookupNotif l' id = some n' ∧ (n' = n ∨ n' = markRead n) := by
  intro l l' h
  induction h with
  | nil ext => intro id n hfind; cases hfind
  | keep m h ih =>
    intro id n hfind
    rw [lookupNotif, List.find?_cons] at hfind
    cases hm : (m.id == id) with
    | true =>
      rw [hm] at hfind
      simp only [cond_true, Option.some.injEq] at hfind
      subst hfind
      refine ⟨m, ?_, Or.inl rfl⟩
      rw [lookupNotif, List.find?_cons, hm]
    | false =>
      rw [hm] at hfind
      simp only [cond_false] at hfind
      rcases ih id n hfind with ⟨n', hn', hc⟩
      refine ⟨n', ?_, hc⟩
      rw [lookupNotif, List.find?_cons, hm]
      exact hn'
  | mark m h ih =>
    intro id n hfind
    rw [lookupNotif, List.find?_cons] at hfind
    cases hm : (m.id == id) with
    | true =>
      rw [hm] at hfind
      simp only [cond_true, Option.some.injEq] at hfind
      subst hfind
      refine ⟨markRead m, ?_, Or.inr rfl⟩
      rw [lookupNotif, List.find?_cons]
      have hmm : ((markRead m).id == id) = true := hm
      rw [hmm]
    | false =>
      rw [hm] at hfind
      simp only [cond_false] at hfind
      rcases ih id n hfind with ⟨n', hn', hc⟩
      refine ⟨n', ?_, hc⟩
      rw [lookupNotif, List.find?_cons]
      have hmm : ((markRead m).id == id) = false := hm
      rw [hmm]
      exact hn'

theorem readMono_lookup_true {l l' : List Notification} (h : ReadMono l l')
    (id : Nat) (n : Notification) (hfind : lookupNotif l id = some n)
    (hr : n.isRead = true) :
    ∃ n', lookupNotif l' id = some n' ∧ n'.isRead = true := by
  rcases readMono_lookup h id n hfind with ⟨n', hn', hc | hc⟩
  · exact ⟨n', hn', hc ▸ hr⟩
  · exact ⟨n', hn', by rw [hc]; rfl⟩

theorem lookup_map (l : List Notification) (f : Notification → Notification)
    (hpres : ∀ y, (f y).id = y.id) (id : Nat) :
    lookupNotif (l.map f) id = (lookupNotif l id).map f := by
  induction l with
  | nil => rfl
  | cons y l ih =>
    rw [List.map_cons, lookupNotif, List.find?_cons, lookupNotif, List.find?_cons]
    have hg : ((f y).id == id) = (y.id == id) := by rw [hpres y]
    rw [hg]
    cases hy : (y.id == id)
    · simp only [cond_false]
      exact ih
    · simp only [cond_true, Option.map_some']

theorem lookup_append_false (l ext : List Notification) (id : Nat)
    (n' : Notification) (hf : ∀ n ∈ ext, n.isRead = false)
    (hn : lookupNotif l id = none)
    (hs : lookupNotif (l ++ ext) id = some n') : n'.isRead = false := by
  rw [lookupNotif, List.find?_append] at hs
  rw [lookupNotif] at hn
  rw [hn, Option.none_or] at hs
  exact hf n' (List.mem_of_find?_eq_some hs)

/-- Shared conclusion of the per-operation analysis for the read flag. -/
theorem notif_unchanged (s t : State) (h1 : t.notifications = s.notifications)
    (h2 : t.nextNotificationId = s.nextNotificationId) (hinv : NotifInv s) :
    NotifInv t ∧ ReadMono s.notifications t.notifications ∧
    (∀ id n', lookupNotif s.notifications id = none →
       lookupNotif t.notifications id = some n' → n'.isRead = false) := by
  refine ⟨⟨?_, ?_⟩, ?_, ?_⟩
  · rw [h1]; exact hinv.1
  · rw [h1, h2]; exact hinv.2
  · rw [h1]; exact readMono_refl _
  · intro id n' hn hs
    rw [h1, hn] at hs
    cases hs

theorem mext_notif_lemma (s t : State) (hm : MExt s t) (hinv : NotifInv s) :
    NotifInv t ∧ ReadMono s.notifications t.notifications ∧
    (∀ id n', lookupNotif s.notifications id = none →
       lookupNotif t.notifications id = some n' → n'.isRead = false) := by
  obtain ⟨_, _, _, _, hbd, hdist, ext, hext, hf⟩ := hm
  refine ⟨⟨hdist hinv.1 hinv.2, hbd hinv.2⟩, ?_, ?_⟩
  · rw [hext]; exact readMono_append _ _
  · intro id n' hn hs
    rw [hext] at hs
    exact lookup_append_false _ _ _ _ hf hn hs

theorem map_notif_lemma (s t : State) (hinv : NotifInv s)
    (f : Notification → Notification)
    (hpt : ∀ y ∈ s.notifications, f y = y ∨ f y = markRead y)
    (hpres : ∀ y, (f y).id = y.id)
    (hlist : t.notifications = s.notifications.map f)
    (hnext : t.nextNotificationId = s.nextNotificationId) :
    NotifInv t ∧ ReadMono s.notifications t.notifications ∧
    (∀ id n', lookupNotif s.notifications id = none →
       lookupNotif t.notifications id = some n' → n'.isRead = false) := by
  refine ⟨⟨?_, ?_⟩, ?_, ?_⟩
  · rw [hlist, List.pairwise_map]
    refine List.Pairwise.imp_of_mem ?_ hinv.1
    intro a b _ _ hab
    rw [hpres a, hpres b]
    exact hab
  · rw [hlist, hnext]
    intro x hx
    rcases List.mem_map.mp hx with ⟨y, hy, hyx⟩
    rw [← hyx, hpres y]
    exact hinv.2 y hy
  · rw [hlist]
    exact readMono_map _ f hpt
  · intro id n' hn hs
    rw [hlist, lookup_map _ f hpres, hn] at hs
    cases hs

theorem checkForNewBooks_mext (s : State) (now : Nat)
    (hb : ∀ n ∈ s.notifications, n.id < s.nextNotificationId) :
    MExt s (checkForNewBooks s now) := by
  by_cases hemp : (getNewReleases s).isEmpty = true
  · rw [checkForNewBooks_empty s now hemp]; exact mext_refl s
  · rw [checkForNewBooks_run s now hemp]
    exact (foldUsers_post (getNewReleases s) now (getAllUsers s) s hb).1

/-- The `forEach`/`Map.set` loop of `markAllNotificationsAsRead`, evaluated:
marking a distinct-id worklist drawn from the list itself is a pointwise
map. -/
theorem markAll_foldl (l : List Notification) :
    ∀ todo : List Notification,
      l.Pairwise (fun a b => a.id ≠ b.id) →
      (∀ n ∈ todo, n ∈ l) →
      todo.Pairwise (fun a b => a.id ≠ b.id) →
      todo.foldl (fun acc n => mapSet (fun m => m.id) (markRead n) acc) l =
        l.map (fun m => if todo.any (fun n => n.id == m.id) then markRead m else m) := by
  intro todo
  induction todo generalizing l with
  | nil =>
    intro _ _ _
    exact (map_id_on _ _ (fun a _ => by simp)).symm
  | cons n todo ih =>
    intro hd hsub hdt
    have hnmem : n ∈ l := hsub n (List.mem_cons_self n todo)
    have hstep : mapSet (fun m => m.id) (markRead n) l =
        l.map (fun y => if y.id == n.id then markRead n else y) :=
      mapSet_eq_map (fun m : Notification => m.id) (markRead n) n l hd hnmem rfl
    rw [List.foldl_cons, hstep]
    have hd1 : (l.map (fun y => if y.id == n.id then markRead n else y)).Pairwise
        (fun a b => a.id ≠ b.id) := by
      rw [List.pairwise_map]
      refine List.Pairwise.imp_of_mem ?_ hd
      intro a b _ _ hab
      by_cases han : a.id = n.id <;> by_cases hbn : b.id = n.id <;>
        simp [han, hbn, markRead] <;> omega
    have hsub1 : ∀ m ∈ todo, m ∈ l.map (fun y => if y.id == n.id then markRead n else y) := by
      intro m hm
      have hmn : m.id ≠ n.id := by
        have := (List.pairwise_cons.mp hdt).1 m hm
        exact fun hc => this hc.symm
      have hml : m ∈ l := hsub m (List.mem_cons_of_mem n hm)
      refine List.mem_map.mpr ⟨m, hml, ?_⟩
      simp [hmn]
    have hdt1 := (List.pairwise_cons.mp hdt).2
    rw [ih _ hd1 hsub1 hdt1, List.map_map]
    refine List.map_congr_left ?_
    intro m hml
    by_cases hmn : m.id = n.id
    · have hmeq : m = n := distinctKeys_mem_eq (fun x => x.id) hd hml hnmem hmn
      subst hmeq
      simp only [Function.comp, beq_self_eq_true, if_true]
      have hidm : (markRead m).id = m.id := rfl
      by_cases ht : todo.any (fun x => x.id == (markRead m).id) = true
      · rw [if_pos ht]
        have hout : ((m.id == m.id) || todo.any (fun x => x.id == m.id)) = true := by
          simp
        simp only [List.any_cons, hout, if_true]
        rfl
      · rw [if_neg ht]
        have hout : ((m.id == m.id) || todo.any (fun x => x.id == m.id)) = true := by
          simp
        simp only [List.any_cons, hout, if_true]
    · simp only [Function.comp, beq_iff_eq, hmn, if_false]
      have hout : ((n.id == m.id) || todo.any (fun x => x.id == m.id)) =
          todo.any (fun x => x.id == m.id) := by
        have : (n.id == m.id) = false := beq_eq_false_iff_ne.mpr (fun hc => hmn hc.symm)
        rw [this, Bool.false_or]
      simp only [List.any_cons, hout]

/-- For distinct ids, membership of an id in a filtered worklist is the
filter predicate of its row. -/
theorem filter_any_id (l : List Notification) (m : Notification)
    (p : Notification → Bool) (hd : l.Pairwise (fun a b => a.id ≠ b.id))
    (hm : m ∈ l) :
    (l.filter p).any (fun n => n.id == m.id) = p m := by
  cases hp : p m
  · refine List.any_eq_false.mpr ?_
    intro x hx
    rcases List.mem_filter.mp hx with ⟨hxl, hpx⟩
    intro hc
    have hxm : x = m := distinctKeys_mem_eq (fun y => y.id) hd hxl hm (by simpa using hc)
    rw [hxm] at hpx
    rw [hp] at hpx
    cases hpx
  · refine List.any_eq_true.mpr ⟨m, List.mem_filter.mpr ⟨hm, hp⟩, by simp⟩

/-- `markAllNotificationsAsRead` is the pointwise map that sets `isRead` on
the rows of the user, given the `Map` key discipline. -/
theorem markAll_eq_map (s : State) (userId : Nat) (hinv : NotifInv s) :
    markAllNotificationsAsRead s userId =
      (true, { s with notifications :=
        s.notifications.map (fun m => if m.userId == userId then markRead m else m) }) := by
  rw [markAllNotificationsAsRead]
  have hfold := markAll_foldl s.notifications
    (s.notifications.filter (fun n => n.userId == userId)) hinv.1
    (fun n hn => (List.mem_filter.mp hn).1)
    (hinv.1.sublist (List.filter_sublist s.notifications))
  rw [hfold]
  have hmap : s.notifications.map
      (fun m => if (s.notifications.filter (fun n => n.userId == userId)).any
          (fun n => n.id == m.id) then markRead m else m) =
      s.notifications.map (fun m => if m.userId == userId then markRead m else m) := by
    refine List.map_congr_left ?_
    intro m hml
    rw [filter_any_id s.notifications m _ hinv.1 hml]
  rw [hmap]

/-- One operation of the store: the key discipline is preserved, the
notification list evolves read-monotonically, and any notification id it
introduces is introduced unread. -/
theorem stepOp_notif (s : State) (op : Op) (hinv : NotifInv s) :
    NotifInv (stepOp s op) ∧ ReadMono s.notifications (stepOp s op).notifications ∧
    (∀ id n', lookupNotif s.notifications id = none →
       lookupNotif ((stepOp s op).notifications) id = some n' → n'.isRead = false) := by
  cases op with
  | opCreateUser iu => exact notif_unchanged s _ rfl rfl hinv
  | opCreateBook ib => exact notif_unchanged s _ rfl rfl hinv
  | opUpdateBook id u =>
    refine notif_unchanged s _ ?_ ?_ hinv <;>
      rcases hf : s.books.find? (fun b => b.id == id) with _ | bk <;>
      simp [stepOp, updateBook, hf]
  | opCreateUserPreferences p => exact notif_unchanged s _ rfl rfl hinv
  | opUpdateUserPreferences userId u =>
    refine notif_unchanged s _ ?_ ?_ hinv <;>
      rcases hf : s.userPreferences.find? (fun p1 => p1.userId == userId) with _ | row <;>
      simp [stepOp, updateUserPreferences, hf]
  | opAddFavorite now f => exact notif_unchanged s _ rfl rfl hinv
  | opRemoveFavorite userId bookId =>
    refine notif_unchanged s _ ?_ ?_ hinv <;>
      rcases hf : s.favorites.find?
        (fun fav => fav.userId == userId && fav.bookId == bookId) with _ | row <;>
      simp [stepOp, removeFavorite, hf]
  | opCreateNotification now n =>
    exact mext_notif_lemma s _ (createNotification_mext s now n hinv.2) hinv
  | opMarkNotificationAsRead id =>
    rcases hf : s.notifications.find? (fun n => n.id == id) with _ | n
    · refine notif_unchanged s _ ?_ ?_ hinv <;> simp [stepOp, markNotificationAsRead, hf]
    · have hmem : n ∈ s.notifications := List.mem_of_find?_eq_some hf
      have hstep : (stepOp s (Op.opMarkNotificationAsRead id)).notifications =
          s.notifications.map (fun y => if y.id == n.id then markRead n else y) := by
        show (markNotificationAsRead s id).2.notifications = _
        rw [markNotificationAsRead]
        rw [hf]
        exact mapSet_eq_map (fun m : Notification => m.id) (markRead n) n
          s.notifications hinv.1 hmem rfl
      refine map_notif_lemma s _ hinv _ ?_ ?_ hstep ?_
      · intro y hy
        by_cases hyn : y.id = n.id
        · have hyeq : y = n := distinctKeys_mem_eq (fun x => x.id) hinv.1 hy hmem hyn
          subst hyeq
          right
          simp
        · left
          simp [hyn]
      · intro y
        by_cases hyn : y.id = n.id <;> simp [hyn, markRead]
      · show (markNotificationAsRead s id).2.nextNotificationId = _
        rw [markNotificationAsRead, hf]
  | opMarkAllNotificationsAsRead userId =>
    have heq := markAll_eq_map s userId hinv
    have hstep : (stepOp s (Op.opMarkAllNotificationsAsRead userId)).notifications =
        s.notifications.map (fun m => if m.userId == userId then markRead m else m) := by
      show (markAllNotificationsAsRead s userId).2.notifications = _
      rw [heq]
    refine map_notif_lemma s _ hinv _ ?_ ?_ hstep ?_
    · intro y _
      by_cases hy : y.userId = userId
      · right; simp [hy]
      · left; simp [hy]
    · intro y
      by_cases hy : y.userId = userId <;> simp [hy, markRead]
    · show (markAllNotificationsAsRead s userId).2.nextNotificationId = _
      rw [heq]
  | opAddRecentlyViewed now rv =>
    refine notif_unchanged s _ ?_ ?_ hinv <;>
      rcases hf : s.recentlyViewed.find? (fun entry =>
        entry.userId == rv.userId && entry.bookId == rv.bookId) with _ | row <;>
      simp [stepOp, addRecentlyViewed, hf]
  | opClearRecentlyViewed userId => exact notif_unchanged s _ rfl rfl hinv
  | opCreateAuthor a => exact notif_unchanged s _ rfl rfl hinv
  | opCreateBookSeries bs => exact notif_unchanged s _ rfl rfl hinv
  | opFollowAuthor now f =>
    refine notif_unchanged s _ ?_ ?_ hinv <;>
      rcases hf : s.followingAuthors.find? (fun e =>
        e.userId == f.userId && e.authorId == f.authorId) with _ | row <;>
      simp [stepOp, followAuthor, hf]
  | opUnfollowAuthor userId authorId =>
    refine notif_unchanged s _ ?_ ?_ hinv <;>
      rcases hf : s.followingAuthors.find? (fun e =>
        e.userId == userId && e.authorId == authorId) with _ | row <;>
      simp [stepOp, unfollowAuthor, hf]
  | opFollowSeries now f =>
    refine notif_unchanged s _ ?_ ?_ hinv <;>
      rcases hf : s.followingSeries.find? (fun e =>
        e.userId == f.userId && e.seriesId == f.seriesId) with _ | row <;>
      simp [stepOp, followSeries, hf]
  | opUnfollowSeries userId seriesId =>
    refine notif_unchanged s _ ?_ ?_ hinv <;>
      rcases hf : s.followingSeries.find? (fun e =>
        e.userId == userId && e.seriesId == seriesId) with _ | row <;>
      simp [stepOp, unfollowSeries, hf]
  | opFollowCategory now f =>
    refine notif_unchanged s _ ?_ ?_ hinv <;>
      rcases hf : s.followingCategories.find? (fun e =>
        e.userId == f.userId && e.category == f.category) with _ | row <;>
      simp [stepOp, followCategory, hf]
  | opUnfollowCategory userId category =>
    refine notif_unchanged s _ ?_ ?_ hinv <;>
      rcases hf : s.followingCategories.find? (fun e =>
        e.userId == userId && e.category == category) with _ | row <;>
      simp [stepOp, unfollowCategory, hf]
  | opCheckForNewBooks now =>
    exact mext_notif_lemma s _ (checkForNewBooks_mext s now hinv.2) hinv

/-- Any sequence of operations preserves the key discipline and evolves the
notification list read-monotonically. -/
theorem runOps_notif (s : State) (hinv : NotifInv s) (ops : List Op) :
    NotifInv (runOps s ops) ∧ ReadMono s.notifications (runOps s ops).notifications := by
  induction ops generalizing s with
  | nil => exact ⟨hinv, readMono_refl _⟩
  | cons op ops ih =>
    rcases stepOp_notif s op hinv with ⟨h1, h2, _⟩
    rcases ih (stepOp s op) h1 with ⟨h3, h4⟩
    rw [runOps] at h3 h4 ⊢
    rw [List.foldl_cons]
    exact ⟨h3, readMono_trans h2 h4⟩

/-- C10: for every userId — including one with no notification rows at all —
`markAllNotificationsAsRead` returns true, sets `isRead` on exactly the rows
of that user while changing none of their other fields, leaves every other
notification and every other store field untouched (the full state equality),
and afterwards the unread count of that user is 0.  The hypothesis is the
`Map` key discipline on notification ids. -/
theorem markAllNotificationsAsRead_spec (s : State) (userId : Nat)
    (hinv : NotifInv s) :
    (markAllNotificationsAsRead s userId).1 = true ∧
    (markAllNotificationsAsRead s userId).2 =
      { s with notifications :=
          s.notifications.map (fun m => if m.userId == userId then markRead m else m) } ∧
    getUnreadNotificationCount (markAllNotificationsAsRead s userId).2 userId = 0 := by
  have heq := markAll_eq_map s userId hinv
  refine ⟨by rw [heq], by rw [heq], ?_⟩
  rw [heq]
  have h0 : (List.filter (fun n => n.userId == userId && !n.isRead)
      (s.notifications.map (fun m => if m.userId == userId then markRead m else m))) = [] := by
    apply filter_map_false
    intro y _
    by_cases hy : y.userId = userId
    · simp [hy, markRead]
    · simp [hy]
  show (List.filter (fun n => n.userId == userId && !n.isRead)
      (s.notifications.map (fun m => if m.userId == userId then markRead m else m))).length = 0
  rw [h0]
  rfl

/-- Witness for C10 at a store holding read and unread rows of two users. -/
theorem markAllNotificationsAsRead_spec_witness :
    NotifInv notifState ∧
    (markAllNotificationsAsRead notifState 1).1 = true ∧
    getUnreadNotificationCount (markAllNotificationsAsRead notifState 1).2 1 = 0 :=
  ⟨⟨by decide, by decide⟩,
   (markAllNotificationsAsRead_spec notifState 1 ⟨by decide, by decide⟩).1,
   (markAllNotificationsAsRead_spec notifState 1 ⟨by decide, by decide⟩).2.2⟩

/-- C9: every notification is created with `isRead = false`
(`createNotification` overrides any incoming flag), any single operation that
introduces a notification id introduces it unread, and across every sequence
of store operations (all mutating operations plus matcher runs) a read
notification stays present with `isRead = true` — the false → true transition
is one-way.  The hypothesis is the `Map` key discipline on notification
ids. -/
theorem notification_read_one_way (s : State) (hinv : NotifInv s) :
    (∀ now inp, ((createNotification s now inp).1).isRead = false) ∧
    (∀ op id n', lookupNotif s.notifications id = none →
       lookupNotif ((stepOp s op).notifications) id = some n' → n'.isRead = false) ∧
    (∀ ops id n, lookupNotif s.notifications id = some n → n.isRead = true →
       ∃ n', lookupNotif ((runOps s ops).notifications) id = some n' ∧
         n'.isRead = true) := by
  refine ⟨fun now inp => rfl, ?_, ?_⟩
  · intro op id n' hn hs
    exact (stepOp_notif s op hinv).2.2 id n' hn hs
  · intro ops id n hfind hr
    exact readMono_lookup_true (runOps_notif s hinv ops).2 id n hfind hr

/-- Witness for C9: notification 1 of `notifState` is read and stays read
across a mark-all and a create (the create even passes `isRead: true`, which
is overridden to false for the new row). -/
theorem notification_read_one_way_witness :
    NotifInv notifState ∧
    (∃ n', lookupNotif ((runOps notifState
        [Op.opMarkAllNotificationsAsRead 1,
         Op.opCreateNotification 9 { userId := 2, title := "t", message := "m", type := none, bookId := none, isRead := true }]).notifications) 1 =
      some n' ∧ n'.isRead = true) :=
  ⟨⟨by decide, by decide⟩,
   (notification_read_one_way notifState ⟨by decide, by decide⟩).2.2
     [Op.opMarkAllNotificationsAsRead 1,
      Op.opCreateNotification 9 { userId := 2, title := "t", message := "m", type := none, bookId := none, isRead := true }]
     1 { id := 1, userId := 1, title := "a", message := "m", type := none, isRead := true, createdAt := 0, bookId := none }
     (by decide) (by decide)⟩

end StoryStash
